import Mathlib

/-!
Verification of the Xero bulk invoice-attachment downloader
(`app_download.py`) against its specification.

Strings are modelled as `List Char`; Python's `str.split`,
`str.strip`, `str.replace` and the `in` containment test are given
faithful executable counterparts.  The script's interaction with the
Xero API is modelled by an oracle of responses, and a run of `main`
is a pure function from the oracle (plus the initial content of
`xero_download.log`) to a trace of observable events.
-/

namespace XeroBulk

/-- Python strings, modelled as lists of characters. -/
abbrev Str := List Char

/-- Coerce a Lean string literal to the model's string type. -/
def str (s : String) : Str := s.data

/-- Python `str.isspace` for a single character, as used by `str.strip()`. -/
def pyIsSpace (c : Char) : Bool :=
  c == ' ' || c == '\t' || c == '\n' || c == '\r' || c == '\x0b' || c == '\x0c'

/-- Python `s.strip()`: remove whitespace from both ends. -/
def pyStrip (s : Str) : Str :=
  ((s.dropWhile pyIsSpace).reverse.dropWhile pyIsSpace).reverse

/-- Worker for `pySplit`, structurally recursive on a fuel argument.
Scans left to right; each time `sep` occurs, the current chunk is cut.
The fuel never runs out when it starts at the length of the string. -/
def splitGo (sep : Str) : Nat → Str → List Str
  | _, [] => [[]]
  | 0, s => [s]
  | fuel+1, c :: rest =>
    if sep.isPrefixOf (c :: rest) then
      [] :: splitGo sep fuel ((c :: rest).drop sep.length)
    else
      match splitGo sep fuel rest with
      | [] => [[c]]
      | chunk :: chunks => (c :: chunk) :: chunks

/-- Python `s.split(sep)` for a non-empty separator `sep`. -/
def pySplit (sep s : Str) : List Str := splitGo sep s.length s

/-- The longest prefix of `s` that precedes the first occurrence of `sep`
(all of `s` when `sep` does not occur). -/
def beforeFirst (sep : Str) : Str → Str
  | [] => []
  | c :: rest =>
    if sep.isPrefixOf (c :: rest) then [] else c :: beforeFirst sep rest

/-- The suffix of `s` that follows the first occurrence of `sep`,
or `none` when `sep` does not occur in `s`. -/
def afterFirst (sep : Str) : Str → Option Str
  | [] => none
  | c :: rest =>
    if sep.isPrefixOf (c :: rest) then some ((c :: rest).drop sep.length)
    else afterFirst sep rest

/-- Python's substring containment test `needle in s`. -/
def containsSub (needle : Str) : Str → Bool
  | [] => needle.isPrefixOf []
  | c :: rest => needle.isPrefixOf (c :: rest) || containsSub needle rest

/-- The log-line marker `"Processing invoice:"` (membership test of
`load_processed_invoices`). -/
def procMarker : Str := str "Processing invoice:"

/-- The separator `"ID: "` used by `load_processed_invoices`. -/
def idMarker : Str := str "ID: "

/-- The log-line marker and separator `"Downloaded attachment: "` used by
`load_downloaded_attachments`. -/
def dlMarker : Str := str "Downloaded attachment: "

/-- The invoice-id extraction of `load_processed_invoices`, lines 143-146:
`parts = line.split("ID: ")`, and when `len(parts) > 1` the id is
`parts[1].split(',')[0].strip()`. -/
def extractProcessedId (line : Str) : Option Str :=
  let parts := pySplit idMarker line
  if 1 < parts.length then
    some (pyStrip ((pySplit [','] (parts.getD 1 [])).headD []))
  else none

/-- The attachment-name extraction of `load_downloaded_attachments`,
lines 156-158: `parts = line.split("Downloaded attachment: ")`, and when
`len(parts) > 1` the name is `parts[1].strip()`. -/
def extractDownloaded (line : Str) : Option Str :=
  let parts := pySplit dlMarker line
  if 1 < parts.length then some (pyStrip (parts.getD 1 [])) else none

/-- The set of invoice ids harvested from a list of log lines
(`load_processed_invoices`, given the file's lines). -/
def loadProcessedLines (lines : List Str) : Finset Str :=
  ((lines.filter fun l => containsSub procMarker l).filterMap
    extractProcessedId).toFinset

/-- The set of attachment names harvested from a list of log lines
(`load_downloaded_attachments`, given the file's lines). -/
def loadDownloadedLines (lines : List Str) : Finset Str :=
  ((lines.filter fun l => containsSub dlMarker l).filterMap
    extractDownloaded).toFinset

/-- `load_processed_invoices` (lines 135-147): `none` models an absent
`xero_download.log`, for which the function returns the empty set. -/
def load_processed_invoices (file : Option (List Str)) : Finset Str :=
  match file with
  | none => ∅
  | some lines => loadProcessedLines lines

/-- `load_downloaded_attachments` (lines 149-160). -/
def load_downloaded_attachments (file : Option (List Str)) : Finset Str :=
  match file with
  | none => ∅
  | some lines => loadDownloadedLines lines

/-! ### The data model: configuration, API responses, observable events -/

/-- The configuration read from `config.ini` plus the parsed `START_DATE`
(`start_date.year/month/day`). -/
structure Config where
  CLIENT_ID : Str
  CLIENT_SECRET : Str
  SUPPLIER_NAME : Str
  startYear : Nat
  startMonth : Nat
  startDay : Nat

/-- Response of the token endpoint: HTTP status, the `access_token` field of
the JSON body, and the response text. -/
structure TokenResp where
  status : Nat
  access_token : Str
  text : Str

/-- Response of the connections endpoint: status and the `tenantId` fields of
the returned connection objects. -/
structure ConnResp where
  status : Nat
  tenants : List Str
  text : Str

/-- A contact record, reduced to the one field the script reads. -/
structure Contact where
  ContactID : Str
deriving DecidableEq

/-- Response of the contacts endpoint (`.get('Contacts', [])`). -/
structure ContactsResp where
  status : Nat
  contacts : List Contact
  text : Str

/-- An invoice record, reduced to the fields the script reads.
`InvoiceNumber` and `DateString` are accessed with `.get` and may be
absent (`none`). -/
structure Invoice where
  InvoiceID : Str
  InvoiceNumber : Option Str
  DateString : Option Str
deriving DecidableEq

/-- Response of one invoice page (`.get('Invoices', [])`). -/
structure InvoicesResp where
  status : Nat
  invoices : List Invoice
  text : Str

/-- An attachment record, reduced to its `FileName` field. -/
structure Attachment where
  FileName : Str
deriving DecidableEq

/-- Response of an invoice's attachments endpoint (`.get('Attachments', [])`). -/
structure AttachResp where
  status : Nat
  attachments : List Attachment
  text : Str

/-- Response of an attachment download: status and raw content. -/
structure DlResp where
  status : Nat
  content : Str
  text : Str

/-- The environment of a run: the response every request would receive,
plus the `asctime` prefix the logger stamps on the k-th record of the run. -/
structure Oracle where
  tokenResp : TokenResp
  connResp : ConnResp
  contactsResp : ContactsResp
  pageResp : Nat → InvoicesResp
  metaResp : Str → AttachResp
  dlResp : Str → Str → DlResp
  pfx : Nat → Str

/-- Observable events of a run, in program order. -/
inductive Ev where
  | reqToken (clientId clientSecret grantType scopes : Str)
  | reqConnections
  | reqContacts (whereP : Str)
  | reqInvoicePage (whereP order : Str) (page : Nat)
  | reqAttachMeta (invId : Str)
  | reqAttachDl (invId fileName : Str)
  | writeFile (name content : Str)
  | logRec (level msg : Str)
  | printMsg (msg : Str)
  | ensureDir (path : Str)
  | chdir (path : Str)
  | sleep
  | exited (code : Nat)
deriving DecidableEq

/-- The level string of `logger.info` records. -/
def INFO : Str := str "INFO"

/-- The level string of `logger.error` records. -/
def ERROR : Str := str "ERROR"

/-- Decimal rendering of a natural number (Python `f"{n}"`). -/
def natStr (n : Nat) : Str := (Nat.repr n).data

/-- Python `f"{n:02d}"` for a natural number: zero-pad to width 2. -/
def pad2 (n : Nat) : Str := if n < 10 then '0' :: natStr n else natStr n

/-- `strftime('%Y')` for a natural year: zero-pad to width 4. -/
def pad4 (n : Nat) : Str :=
  (if n < 10 then str "000" else if n < 100 then str "00"
   else if n < 1000 then str "0" else []) ++ natStr n

/-- Python `s.replace(a, b)` for single characters. -/
def pyReplace (a b : Char) (s : Str) : Str :=
  s.map fun c => if c = a then b else c

/-! ### Message strings, faithful to the script's f-strings -/

/-- Message of line 191. -/
def msgStart : Str := str "Starting Xero invoice attachment downloader..."

/-- Message of line 190. -/
def msgFetching : Str := str "Fetching access token from Xero..."

/-- Message of lines 53-54. -/
def msgTokenOk : Str := str "Obtained token successfully"

/-- Message of lines 57-58. -/
def msgTokenFail (st : Nat) (t : Str) : Str :=
  str "Failed to fetch token: " ++ natStr st ++ str " - " ++ t

/-- Message of lines 68-69. -/
def msgTenant (t : Str) : Str := str "Using tenant ID: " ++ t

/-- Message of lines 72-73. -/
def msgNoTenant : Str := str "No tenant found in connections"

/-- Message of lines 76-77. -/
def msgTenantFail (st : Nat) (t : Str) : Str :=
  str "Failed to fetch tenant ID: " ++ natStr st ++ str " - " ++ t

/-- Message of lines 92-93. -/
def msgFoundContact (name cid : Str) : Str :=
  str "Found \x27" ++ name ++ str "\x27 with ContactID: " ++ cid

/-- Message of lines 96-97. -/
def msgNoContact (name : Str) : Str :=
  str "No contact found with name \x27" ++ name ++ str "\x27"

/-- Message of lines 100-101. -/
def msgContactFail (st : Nat) (t : Str) : Str :=
  str "Failed to fetch contact details: " ++ natStr st ++ str " - " ++ t

/-- Message of lines 122-123. -/
def msgFetchedPage (page cnt total : Nat) : Str :=
  str "Fetched page " ++ natStr page ++ str ": " ++ natStr cnt ++
    str " invoices (total so far: " ++ natStr total ++ str ")"

/-- Message of lines 127-128. -/
def msgInvFail (st : Nat) (t : Str) : Str :=
  str "Failed to fetch invoices: " ++ natStr st ++ str " - " ++ t

/-- Message of lines 131-132; `today` is fixed at 2025-03-20 (line 106). -/
def msgFoundInvoices (cfg : Config) (total : Nat) : Str :=
  str "Found " ++ natStr total ++ str " invoices for \x27" ++
    cfg.SUPPLIER_NAME ++ str "\x27 from " ++
    pad4 cfg.startYear ++ str "-" ++ pad2 cfg.startMonth ++ str "-" ++
    pad2 cfg.startDay ++ str " to 2025-03-20"

/-- Message of line 167. -/
def msgSkipping (u : Str) : Str :=
  str "Skipping " ++ u ++ str " - already downloaded"

/-- Message of line 168. -/
def msgSkipped (u : Str) : Str :=
  str "Skipped " ++ u ++ str " - already downloaded"

/-- Message of lines 181-182. -/
def msgDownloaded (u : Str) : Str := str "Downloaded attachment: " ++ u

/-- Message of lines 184-185. -/
def msgDlFail (f : Str) (st : Nat) (t : Str) : Str :=
  str "Failed to download " ++ f ++ str ": " ++ natStr st ++ str " - " ++ t

/-- Message of line 215. -/
def msgSkipInv (num id_ : Str) : Str :=
  str "Skipping invoice: " ++ num ++ str " (ID: " ++ id_ ++
    str ") - already processed"

/-- Message of line 216. -/
def msgSkippedInv (num id_ : Str) : Str :=
  str "Skipped invoice: " ++ num ++ str " (ID: " ++ id_ ++
    str ") - already processed"

/-- Message of lines 219-220: the processed-invoice ledger entry. -/
def msgProcessing (num id_ d : Str) : Str :=
  str "Processing invoice: " ++ num ++ str " (ID: " ++ id_ ++
    str ", Date: " ++ d ++ str ")"

/-- Message of lines 229-230. -/
def msgFoundAttach (f : Str) : Str := str "Found attachment: " ++ f

/-- Message of lines 233-234. -/
def msgNoAttach (num : Str) : Str :=
  str "No attachments found for invoice " ++ num

/-- Message of lines 237-238. -/
def msgAttachFail (num : Str) (st : Nat) (t : Str) : Str :=
  str "Failed to fetch attachments for " ++ num ++ str ": " ++ natStr st ++
    str " - " ++ t

/-- Message of lines 240-241. -/
def msgProcessedN (n : Nat) : Str :=
  str "Processed " ++ natStr n ++ str " new invoices."

/-! ### The log file on disk -/

/-- The records written by the logger during a run, in order: pairs of
level name and message. -/
def logMsgs (tr : List Ev) : List (Str × Str) :=
  tr.filterMap fun e => match e with
    | .logRec lvl m => some (lvl, m)
    | _ => none

/-- Render the records numbered from `k` with the configured format
`'%(asctime)s - %(levelname)s - %(message)s'`. -/
def renderFrom (pfx : Nat → Str) : Nat → List (Str × Str) → List Str
  | _, [] => []
  | k, lm :: rest =>
    (pfx k ++ str " - " ++ lm.1 ++ str " - " ++ lm.2) ::
      renderFrom pfx (k + 1) rest

/-- The lines the logger appended to the file during the run so far. -/
def renderLog (pfx : Nat → Str) (tr : List Ev) : List Str :=
  renderFrom pfx 0 (logMsgs tr)

/-- Content of `xero_download.log` at a point of a run whose trace so far is
`tr`, given its content `log0` at process start (`none`: absent file; the
logger creates the file when it emits its first record). -/
def fileAt (log0 : Option (List Str)) (pfx : Nat → Str) (tr : List Ev) :
    Option (List Str) :=
  if log0 = none ∧ logMsgs tr = [] then none
  else some (log0.getD [] ++ renderLog pfx tr)

/-! ### The API steps -/

/-- Result of a step that either produces a value or exits the process:
`ok? = none` models `sys.exit(1)`, and `tr` is the step's event trace. -/
structure StepOut (α : Type) where
  ok? : Option α
  tr : List Ev

/-- The token request of lines 48-51: HTTP Basic auth from `CLIENT_ID` and
`CLIENT_SECRET`, form data with `grant_type` `"client_credentials"` and the
scopes string. -/
def tokenReqEv (cfg : Config) : Ev :=
  Ev.reqToken cfg.CLIENT_ID cfg.CLIENT_SECRET (str "client_credentials")
    (str "accounting.transactions accounting.attachments accounting.contacts")

/-- `get_token` (lines 47-59): one client-credentials exchange, HTTP Basic
auth with `CLIENT_ID`/`CLIENT_SECRET`; on 200, the `access_token` field of
the body; otherwise print, log and `sys.exit(1)`. -/
def get_token (cfg : Config) (o : Oracle) : StepOut Str :=
  if o.tokenResp.status = 200 then
    ⟨some o.tokenResp.access_token,
     [tokenReqEv cfg, .printMsg msgTokenOk, .logRec INFO msgTokenOk]⟩
  else
    ⟨none, [tokenReqEv cfg,
      .printMsg (msgTokenFail o.tokenResp.status o.tokenResp.text),
      .logRec ERROR (msgTokenFail o.tokenResp.status o.tokenResp.text),
      .exited 1]⟩

/-- `get_tenant_id` (lines 61-78). -/
def get_tenant_id (o : Oracle) : StepOut Str :=
  if o.connResp.status = 200 then
    match o.connResp.tenants with
    | t :: _ =>
      ⟨some t, [.reqConnections, .printMsg (msgTenant t),
        .logRec INFO (msgTenant t)]⟩
    | [] =>
      ⟨none, [.reqConnections, .printMsg msgNoTenant,
        .logRec ERROR msgNoTenant, .exited 1]⟩
  else
    ⟨none, [.reqConnections,
      .printMsg (msgTenantFail o.connResp.status o.connResp.text),
      .logRec ERROR (msgTenantFail o.connResp.status o.connResp.text),
      .exited 1]⟩

/-- The `where` filter of `get_contact_id` (line 86). -/
def whereName (name : Str) : Str := str "Name==\"" ++ name ++ str "\""

/-- `get_contact_id` (lines 85-102); `main` calls it with the default
`contact_name=SUPPLIER_NAME`. -/
def get_contact_id (cfg : Config) (o : Oracle) : StepOut Str :=
  if o.contactsResp.status = 200 then
    match o.contactsResp.contacts with
    | c :: _ =>
      ⟨some c.ContactID,
        [.reqContacts (whereName cfg.SUPPLIER_NAME),
         .printMsg (msgFoundContact cfg.SUPPLIER_NAME c.ContactID),
         .logRec INFO (msgFoundContact cfg.SUPPLIER_NAME c.ContactID)]⟩
    | [] =>
      ⟨none, [.reqContacts (whereName cfg.SUPPLIER_NAME),
        .printMsg (msgNoContact cfg.SUPPLIER_NAME),
        .logRec ERROR (msgNoContact cfg.SUPPLIER_NAME), .exited 1]⟩
  else
    ⟨none, [.reqContacts (whereName cfg.SUPPLIER_NAME),
      .printMsg (msgContactFail o.contactsResp.status o.contactsResp.text),
      .logRec ERROR (msgContactFail o.contactsResp.status o.contactsResp.text),
      .exited 1]⟩

/-- The `where` filter of every invoice page request (line 112):
contact equality plus inclusive lower date bound, no upper bound. -/
def whereInvoices (cid : Str) (y m d : Nat) : Str :=
  str "Contact.ContactID==Guid(\"" ++ cid ++
    str "\") AND Date>=DateTime(" ++ natStr y ++ str "," ++ pad2 m ++
    str "," ++ pad2 d ++ str ")"

/-- Outcome of the pagination loop of `get_invoices_for_contact`. -/
inductive LoopOut where
  | done (invoices : List Invoice) (tr : List Ev)
  | exit (tr : List Ev)
  | spin (tr : List Ev)

/-- The trace of a pagination outcome. -/
def LoopOut.tr : LoopOut → List Ev
  | .done _ t => t
  | .exit t => t
  | .spin t => t

/-- The `while True` pagination loop of `get_invoices_for_contact`
(lines 108-129), with a fuel bound on the number of iterations the
analysis unrolls (`spin` is returned only when fuel runs out). -/
def invLoop (o : Oracle) (wp : Str) :
    Nat → Nat → List Invoice → List Ev → LoopOut
  | 0, _, _, tr => .spin tr
  | fuel+1, page, acc, tr =>
    if (o.pageResp page).status = 200 then
      if (o.pageResp page).invoices = [] then
        .done acc (tr ++ [.reqInvoicePage wp (str "Date DESC") page])
      else
        invLoop o wp fuel (page + 1) (acc ++ (o.pageResp page).invoices)
          (tr ++ [.reqInvoicePage wp (str "Date DESC") page,
            .printMsg (msgFetchedPage page (o.pageResp page).invoices.length
              (acc ++ (o.pageResp page).invoices).length),
            .logRec INFO (msgFetchedPage page (o.pageResp page).invoices.length
              (acc ++ (o.pageResp page).invoices).length),
            .sleep])
    else
      .exit (tr ++ [.reqInvoicePage wp (str "Date DESC") page,
        .printMsg (msgInvFail (o.pageResp page).status (o.pageResp page).text),
        .logRec ERROR (msgInvFail (o.pageResp page).status
          (o.pageResp page).text),
        .exited 1])

/-- `get_invoices_for_contact` (lines 104-133): paginate from page 1,
then report the total. -/
def get_invoices_for_contact (cfg : Config) (o : Oracle) (cid : Str)
    (fuel : Nat) : LoopOut :=
  match invLoop o (whereInvoices cid cfg.startYear cfg.startMonth
      cfg.startDay) fuel 1 [] [] with
  | .done invs tr =>
    .done invs (tr ++ [.printMsg (msgFoundInvoices cfg invs.length),
      .logRec INFO (msgFoundInvoices cfg invs.length)])
  | x => x

/-! ### The download loop -/

/-- Line 163: `file_name.replace('/', '_').replace('\\', '_')`. -/
def sanitizeName (f : Str) : Str := pyReplace '\\' '_' (pyReplace '/' '_' f)

/-- Line 164: `f"{inv_num}_{safe_file_name}"`.  Note the invoice number is
not sanitized. -/
def uniqueFileName (invNum f : Str) : Str :=
  invNum ++ '_' :: sanitizeName f

/-- `download_invoice_attachment` (lines 162-186), as the event trace it
produces.  When the unique name is in `downloaded_set` the function returns
at line 169, before the HTTP request. -/
def download_invoice_attachment (o : Oracle)
    (invoice_id file_name inv_num : Str) (downloaded_set : Finset Str) :
    List Ev :=
  if uniqueFileName inv_num file_name ∈ downloaded_set then
    [.printMsg (msgSkipping (uniqueFileName inv_num file_name)),
     .logRec INFO (msgSkipped (uniqueFileName inv_num file_name))]
  else if (o.dlResp invoice_id file_name).status = 200 then
    [.reqAttachDl invoice_id file_name,
     .writeFile (uniqueFileName inv_num file_name)
       (o.dlResp invoice_id file_name).content,
     .printMsg (msgDownloaded (uniqueFileName inv_num file_name)),
     .logRec INFO (msgDownloaded (uniqueFileName inv_num file_name)),
     .sleep]
  else
    [.reqAttachDl invoice_id file_name,
     .printMsg (msgDlFail file_name (o.dlResp invoice_id file_name).status
       (o.dlResp invoice_id file_name).text),
     .logRec ERROR (msgDlFail file_name (o.dlResp invoice_id file_name).status
       (o.dlResp invoice_id file_name).text),
     .sleep]

/-- The `for attachment in attachments` loop of `main` (lines 227-231). -/
def attachLoop (o : Oracle) (invId invNum : Str) (dset : Finset Str) :
    List Attachment → List Ev
  | [] => []
  | a :: rest =>
    [.printMsg (msgFoundAttach a.FileName),
     .logRec INFO (msgFoundAttach a.FileName)] ++
      download_invoice_attachment o invId a.FileName invNum dset ++
      attachLoop o invId invNum dset rest

/-- The derived invoice number of line 210: `inv.get('InvoiceNumber', inv_id)`. -/
def invNum (inv : Invoice) : Str := inv.InvoiceNumber.getD inv.InvoiceID

/-- The derived date string of line 211: `inv.get('DateString', 'N/A')`. -/
def invDate (inv : Invoice) : Str := inv.DateString.getD (str "N/A")

/-- The events of lines 219-223, run for every non-skipped invoice before
its attachment metadata response is examined: print and log the
`"Processing invoice:"` ledger entry, then request the metadata. -/
def procHd (inv : Invoice) : List Ev :=
  [.printMsg (msgProcessing (invNum inv) inv.InvoiceID (invDate inv)),
   .logRec INFO (msgProcessing (invNum inv) inv.InvoiceID (invDate inv)),
   .reqAttachMeta inv.InvoiceID]

/-- One iteration of the `for inv in invoices` loop of `main`
(lines 208-238): trace produced, and 1 when `new_invoices_processed` was
incremented. -/
def procInvoice (o : Oracle) (proc dset : Finset Str) (inv : Invoice) :
    List Ev × Nat :=
  if inv.InvoiceID ∈ proc then
    ([.printMsg (msgSkipInv (invNum inv) inv.InvoiceID),
      .logRec INFO (msgSkippedInv (invNum inv) inv.InvoiceID)], 0)
  else if (o.metaResp inv.InvoiceID).status = 200 then
    if (o.metaResp inv.InvoiceID).attachments = [] then
      (procHd inv ++ [.printMsg (msgNoAttach (invNum inv)),
        .logRec INFO (msgNoAttach (invNum inv))], 1)
    else
      (procHd inv ++ attachLoop o inv.InvoiceID (invNum inv) dset
        (o.metaResp inv.InvoiceID).attachments, 1)
  else
    (procHd inv ++ [.printMsg (msgAttachFail (invNum inv)
        (o.metaResp inv.InvoiceID).status (o.metaResp inv.InvoiceID).text),
      .logRec ERROR (msgAttachFail (invNum inv)
        (o.metaResp inv.InvoiceID).status (o.metaResp inv.InvoiceID).text)],
      0)

/-- The whole `for inv in invoices` loop. -/
def procLoop (o : Oracle) (proc dset : Finset Str) :
    List Invoice → List Ev × Nat
  | [] => ([], 0)
  | inv :: rest =>
    ((procInvoice o proc dset inv).1 ++ (procLoop o proc dset rest).1,
     (procInvoice o proc dset inv).2 + (procLoop o proc dset rest).2)

/-! ### A whole run of `main` -/

/-- The supplier folder of lines 198-201:
`os.path.join("invoice_attachments", SUPPLIER_NAME.replace(" ", "_"))`. -/
def supplierFolder (cfg : Config) : Str :=
  str "invoice_attachments/" ++ pyReplace ' ' '_' cfg.SUPPLIER_NAME

/-- Everything observable about one run of `main`: the event trace, the
exit status (`some 1` when `sys.exit(1)` ran), whether the analysis fuel
ran out, the retrieved invoice list, the two resumption sets as loaded at
lines 204-205, and the final content of the log file. -/
structure RunOut where
  tr : List Ev
  exit? : Option Nat
  spun : Bool
  invoices : List Invoice
  processedSet : Finset Str
  downloadedSet : Finset Str
  finalLog : Option (List Str)

/-- The events of lines 190-191, before the token request. -/
def tr0run : List Ev := [.printMsg msgFetching, .logRec INFO msgStart]

/-- Trace after `get_token` returned. -/
def tr1run (cfg : Config) (o : Oracle) : List Ev :=
  tr0run ++ (get_token cfg o).tr

/-- Trace after `get_tenant_id` returned. -/
def tr2run (cfg : Config) (o : Oracle) : List Ev :=
  tr1run cfg o ++ (get_tenant_id o).tr

/-- Trace after `get_contact_id` returned. -/
def tr3run (cfg : Config) (o : Oracle) : List Ev :=
  tr2run cfg o ++ (get_contact_id cfg o).tr

/-- The processed-invoice set loaded at line 204.  The file opened there is
`xero_download.log` relative to the supplier folder entered by `os.chdir`
at line 201.  This is NOT the file the logger writes: `logging.basicConfig`
(line 12) resolved its `filename` to an absolute path when the module was
imported (`FileHandler` calls `os.path.abspath` at construction), so the
handler keeps appending to the original directory's file while lines
204-205 read the supplier-folder file, which no run ever writes.  `sfLog`
is the content of that supplier-folder file (`none` when absent). -/
def procAt (sfLog : Option (List Str)) : Finset Str :=
  load_processed_invoices sfLog

/-- The downloaded-attachment set loaded at line 205, from the same
supplier-folder file as `procAt`. -/
def dsetAt (sfLog : Option (List Str)) : Finset Str :=
  load_downloaded_attachments sfLog

/-- The whole trace of a run that reaches the invoice loop. -/
def doneTr (o : Oracle) (sfLog : Option (List Str)) (tr4 : List Ev)
    (invs : List Invoice) : List Ev :=
  tr4 ++ (procLoop o (procAt sfLog) (dsetAt sfLog) invs).1 ++
    [.printMsg (msgProcessedN
        (procLoop o (procAt sfLog) (dsetAt sfLog) invs).2),
     .logRec INFO (msgProcessedN
        (procLoop o (procAt sfLog) (dsetAt sfLog) invs).2)]

/-- Outcome of a run that called `sys.exit(1)` with trace `tr`. -/
def exitOut (o : Oracle) (log0 : Option (List Str)) (tr : List Ev) : RunOut :=
  ⟨tr, some 1, false, [], ∅, ∅, fileAt log0 o.pfx tr⟩

/-- Outcome when the analysis fuel for the pagination loop ran out. -/
def spinOut (o : Oracle) (log0 : Option (List Str)) (tr : List Ev) : RunOut :=
  ⟨tr, none, true, [], ∅, ∅, fileAt log0 o.pfx tr⟩

/-- Outcome of a run that reached and finished the invoice loop
(lines 198-241).  `log0` is the content of the file the logger writes —
whose absolute path was fixed at import time — and `sfLog` is the content
of `supplier_folder/xero_download.log`, the distinct file that lines
204-205 read after `os.chdir` (line 201). -/
def mainDone (o : Oracle) (log0 sfLog : Option (List Str)) (tr4 : List Ev)
    (invs : List Invoice) : RunOut :=
  ⟨doneTr o sfLog tr4 invs, none, false, invs,
   procAt sfLog, dsetAt sfLog,
   fileAt log0 o.pfx (doneTr o sfLog tr4 invs)⟩

/-- A run of `main` (lines 188-252), driven by the oracle `o`.  `log0` is
the starting content of the logger's file (the absolute path resolved when
`logging.basicConfig` ran at import); `sfLog` is the content of
`supplier_folder/xero_download.log`, the file actually opened by
`load_processed_invoices` and `load_downloaded_attachments` at lines
204-205, because `os.chdir(supplier_folder)` at line 201 precedes them
while the logger keeps its import-time absolute path.  The run appends its
records to the former and never writes the latter. -/
def mainRun (cfg : Config) (o : Oracle) (log0 sfLog : Option (List Str))
    (fuel : Nat) : RunOut :=
  match (get_token cfg o).ok? with
  | none => exitOut o log0 (tr1run cfg o)
  | some _ =>
    match (get_tenant_id o).ok? with
    | none => exitOut o log0 (tr2run cfg o)
    | some _ =>
      match (get_contact_id cfg o).ok? with
      | none => exitOut o log0 (tr3run cfg o)
      | some cid =>
        match get_invoices_for_contact cfg o cid fuel with
        | .exit ltr => exitOut o log0 (tr3run cfg o ++ ltr)
        | .spin ltr => spinOut o log0 (tr3run cfg o ++ ltr)
        | .done invs ltr =>
          mainDone o log0 sfLog (tr3run cfg o ++ ltr ++
            [.ensureDir (supplierFolder cfg), .chdir (supplierFolder cfg)])
            invs

/-! ### Event classifiers -/

/-- The invoice id an event concerns, when it is an attachment-metadata or
attachment-download request. -/
def Ev.attachOf : Ev → Option Str
  | .reqAttachMeta j => some j
  | .reqAttachDl j _ => some j
  | _ => none

/-- The page number of an invoice-page request event. -/
def Ev.pageOf : Ev → Option Nat
  | .reqInvoicePage _ _ p => some p
  | _ => none

/-- Whether the event is the token request. -/
def Ev.isTokenEv : Ev → Bool
  | .reqToken _ _ _ _ => true
  | _ => false

/-- Whether the event is the connections request. -/
def Ev.isConnEv : Ev → Bool
  | .reqConnections => true
  | _ => false

/-- Whether the event is the contacts request. -/
def Ev.isContactsEv : Ev → Bool
  | .reqContacts _ => true
  | _ => false

/-- Events that are neither HTTP requests nor file writes: console output,
log records, directory handling, sleeping, exiting. -/
def Ev.basic : Ev → Bool
  | .printMsg _ => true
  | .logRec _ _ => true
  | .ensureDir _ => true
  | .chdir _ => true
  | .sleep => true
  | .exited _ => true
  | _ => false

/-- The page numbers of the invoice-page requests of a trace, in order. -/
def pageReqs (tr : List Ev) : List Nat := tr.filterMap Ev.pageOf

/-! ### The claim's reading of the ledger parsers, and the amended reading -/

/-- Formalization of the claim's words for `load_processed_invoices`: the
stripped substring between (the first) `"ID: "` and the next comma (to the
end of the line when no comma follows). -/
def claimExtractProcessed (line : Str) : Option Str :=
  (afterFirst idMarker line).map fun r => pyStrip (beforeFirst [','] r)

/-- Formalization of the claim's words for `load_downloaded_attachments`:
the stripped suffix after (the first) `"Downloaded attachment: "`. -/
def claimExtractDownloaded (line : Str) : Option Str :=
  (afterFirst dlMarker line).map pyStrip

/-- The set the claim says `load_processed_invoices` returns. -/
def claimLoadProcessed (file : Option (List Str)) : Finset Str :=
  match file with
  | none => ∅
  | some lines =>
    ((lines.filter fun l => containsSub procMarker l).filterMap
      claimExtractProcessed).toFinset

/-- The set the claim says `load_downloaded_attachments` returns. -/
def claimLoadDownloaded (file : Option (List Str)) : Finset Str :=
  match file with
  | none => ∅
  | some lines =>
    ((lines.filter fun l => containsSub dlMarker l).filterMap
      claimExtractDownloaded).toFinset

/-- Amended reading for `load_processed_invoices`: the text after the first
`"ID: "` is truncated at the next occurrence of `"ID: "` (if any), then at
its first comma, then stripped. -/
def amendExtractProcessed (line : Str) : Option Str :=
  (afterFirst idMarker line).map fun r =>
    pyStrip (beforeFirst [','] (beforeFirst idMarker r))

/-- Amended reading for `load_downloaded_attachments`: the text after the
first `"Downloaded attachment: "` is truncated at the next occurrence of
that marker (if any), then stripped. -/
def amendExtractDownloaded (line : Str) : Option Str :=
  (afterFirst dlMarker line).map fun r => pyStrip (beforeFirst dlMarker r)

/-- The set of the amended claim for `load_processed_invoices`. -/
def amendLoadProcessed (file : Option (List Str)) : Finset Str :=
  match file with
  | none => ∅
  | some lines =>
    ((lines.filter fun l => containsSub procMarker l).filterMap
      amendExtractProcessed).toFinset

/-- The set of the amended claim for `load_downloaded_attachments`. -/
def amendLoadDownloaded (file : Option (List Str)) : Finset Str :=
  match file with
  | none => ∅
  | some lines =>
    ((lines.filter fun l => containsSub dlMarker l).filterMap
      amendExtractDownloaded).toFinset

/-! ### Occurrence hygiene -/

/-- No occurrence of `sep` starts inside `a` when `a` is followed by `b`:
for every position of `a`, `sep` is not a prefix of the rest of `a ++ b`
from that position on. -/
def noOccStart (sep a b : Str) : Prop :=
  ∀ i, i < a.length → ¬ sep.isPrefixOf (List.drop i a ++ b)

instance (sep a b : Str) : Decidable (noOccStart sep a b) := by
  unfold noOccStart
  exact Nat.decidableBallLT _ _

/-! ### Concrete fixtures for evaluating the model -/

/-- A concrete configuration. -/
def cfgW : Config := ⟨str "id", str "secret", str "Acme Ltd", 2019, 7, 5⟩

/-- A concrete invoice. -/
def invW : Invoice := ⟨str "i1", some (str "N1"), some (str "2020-01-01")⟩

/-- An environment in which authentication, contact lookup, pagination and
the attachment-metadata fetch all succeed, while the attachment download
returns 404. -/
def oracleW : Oracle where
  tokenResp := ⟨200, str "tok", []⟩
  connResp := ⟨200, [str "t1"], []⟩
  contactsResp := ⟨200, [⟨str "c-1"⟩], []⟩
  pageResp := fun p => if p = 1 then ⟨200, [invW], []⟩ else ⟨200, [], []⟩
  metaResp := fun _ => ⟨200, [⟨str "f.pdf"⟩], []⟩
  dlResp := fun _ _ => ⟨404, [], str "nf"⟩
  pfx := fun _ => str "2025-03-20 10:00:00,123"

/-- Like `oracleW` but the attachment-metadata fetch returns 500. -/
def oracle9 : Oracle where
  tokenResp := ⟨200, str "tok", []⟩
  connResp := ⟨200, [str "t1"], []⟩
  contactsResp := ⟨200, [⟨str "c-1"⟩], []⟩
  pageResp := fun p => if p = 1 then ⟨200, [invW], []⟩ else ⟨200, [], []⟩
  metaResp := fun _ => ⟨500, [], str "boom"⟩
  dlResp := fun _ _ => ⟨404, [], str "nf"⟩
  pfx := fun _ => str "2025-03-20 10:00:00,123"

/-- Like `oracleW` but the token exchange fails. -/
def oracleTokFail : Oracle :=
  { oracleW with tokenResp := ⟨500, [], str "boom"⟩ }

/-- Like `oracleW` but the attachment download succeeds. -/
def oracleDl : Oracle :=
  { oracleW with dlResp := fun _ _ => ⟨200, str "x", []⟩ }

/-- A log file recording one downloaded attachment. -/
def linesW : List Str :=
  [str "2025-03-20 10:00:00,123 - INFO - Downloaded attachment: INV1_a.pdf"]

/-- A prior run's ledger file: its `"Processing invoice:"` line records
invoice `i1` as processed. -/
def linesPrior : List Str :=
  [str "2025-03-20 10:00:00,123 - INFO - Processing invoice: N1 (ID: i1, Date: 2020-01-01)"]

/-! ### Lemmas about the split primitives -/

lemma splitGo_nil (sep : Str) (fuel : Nat) : splitGo sep fuel [] = [[]] := by
  cases fuel <;> rfl

lemma splitGoRec (sep : Str) (hsep : sep ≠ []) :
    ∀ fuel s, s.length ≤ fuel →
      splitGo sep fuel s =
        beforeFirst sep s ::
          (match afterFirst sep s with
           | none => []
           | some r => pySplit sep r) := by
  intro fuel
  induction fuel using Nat.strong_induction_on with
  | _ fuel ih =>
    intro s hs
    match fuel, s with
    | fuel, [] => simp [splitGo_nil, beforeFirst, afterFirst]
    | 0, c :: rest => simp at hs
    | f+1, c :: rest =>
      have hseplen : 1 ≤ sep.length := by
        cases sep with
        | nil => exact absurd rfl hsep
        | cons x xs => simp
      by_cases hp : sep.isPrefixOf (c :: rest)
      · have hs' : rest.length + 1 ≤ f + 1 := by simpa using hs
        have hr : ((c :: rest).drop sep.length).length ≤ f := by
          simp only [List.length_drop, List.length_cons]
          omega
        have h1 := ih f (Nat.lt_succ_self f) _ hr
        have h2 := ih ((c :: rest).drop sep.length).length
          (Nat.lt_succ_of_le hr) _ (le_refl _)
        have h3 : splitGo sep f ((c :: rest).drop sep.length) =
            pySplit sep ((c :: rest).drop sep.length) := by
          rw [h1, pySplit, h2]
        simp only [splitGo, if_pos hp, h3, beforeFirst, afterFirst,
          if_pos hp]
      · have hrest : rest.length ≤ f := by
          simp only [List.length_cons] at hs
          omega
        have h1 := ih f (Nat.lt_succ_self f) rest hrest
        simp only [splitGo, if_neg hp, h1, beforeFirst, afterFirst,
          if_neg hp]

lemma pySplit_eq (sep : Str) (hsep : sep ≠ []) (s : Str) :
    pySplit sep s =
      beforeFirst sep s ::
        (match afterFirst sep s with
         | none => []
         | some r => pySplit sep r) :=
  splitGoRec sep hsep s.length s (le_refl _)

lemma pySplit_ne_nil (sep : Str) (hsep : sep ≠ []) (s : Str) :
    pySplit sep s ≠ [] := by
  rw [pySplit_eq sep hsep]
  simp

lemma pySplit_headD (sep : Str) (hsep : sep ≠ []) (s : Str) :
    (pySplit sep s).headD [] = beforeFirst sep s := by
  rw [pySplit_eq sep hsep]
  simp

lemma extractProcessedId_eq (line : Str) :
    extractProcessedId line = amendExtractProcessed line := by
  have hsep : idMarker ≠ [] := by decide
  unfold extractProcessedId amendExtractProcessed
  cases ha : afterFirst idMarker line with
  | none =>
    simp [pySplit_eq idMarker hsep line, ha]
  | some r =>
    have hlen : 0 < (pySplit idMarker r).length :=
      List.length_pos.mpr (pySplit_ne_nil idMarker hsep r)
    simp only [pySplit_eq idMarker hsep line, ha, Option.map_some]
    rw [if_pos (by simpa using Nat.succ_lt_succ hlen)]
    congr 2
    rw [List.getD_cons_succ]
    rw [pySplit_eq idMarker hsep r, List.getD_cons_zero,
      pySplit_headD [','] (by decide) _]

lemma extractDownloaded_eq (line : Str) :
    extractDownloaded line = amendExtractDownloaded line := by
  have hsep : dlMarker ≠ [] := by decide
  unfold extractDownloaded amendExtractDownloaded
  cases ha : afterFirst dlMarker line with
  | none =>
    simp [pySplit_eq dlMarker hsep line, ha]
  | some r =>
    have hlen : 0 < (pySplit dlMarker r).length :=
      List.length_pos.mpr (pySplit_ne_nil dlMarker hsep r)
    simp only [pySplit_eq dlMarker hsep line, ha, Option.map_some]
    rw [if_pos (by simpa using Nat.succ_lt_succ hlen)]
    congr 2
    rw [List.getD_cons_succ]
    rw [pySplit_eq dlMarker hsep r, List.getD_cons_zero]

/-! ### Occurrence lemmas -/

lemma afterFirst_cons (sep : Str) (c : Char) (rest : Str) :
    afterFirst sep (c :: rest) =
      if sep.isPrefixOf (c :: rest) then some (List.drop sep.length (c :: rest))
      else afterFirst sep rest := rfl

lemma beforeFirst_cons (sep : Str) (c : Char) (rest : Str) :
    beforeFirst sep (c :: rest) =
      if sep.isPrefixOf (c :: rest) then [] else c :: beforeFirst sep rest :=
  rfl

lemma containsSub_cons (n : Str) (c : Char) (rest : Str) :
    containsSub n (c :: rest) =
      (n.isPrefixOf (c :: rest) || containsSub n rest) := rfl

lemma noOccStart_cons (sep : Str) (c : Char) (a b : Str)
    (h : noOccStart sep (c :: a) b) : noOccStart sep a b := fun i hi => by
  have := h (i + 1) (by simpa using Nat.succ_lt_succ hi)
  simpa using this

lemma noOccStart_head (sep : Str) (c : Char) (a b : Str)
    (h : noOccStart sep (c :: a) b) :
    ¬ sep.isPrefixOf (c :: (a ++ b)) = true := by
  have h0 := h 0 (by simp)
  simpa using h0

lemma afterFirst_append (sep a b : Str) (h : noOccStart sep a b) :
    afterFirst sep (a ++ b) = afterFirst sep b := by
  induction a with
  | nil => rfl
  | cons c a' ih =>
    rw [List.cons_append, afterFirst_cons,
      if_neg (noOccStart_head sep c a' b h)]
    exact ih (noOccStart_cons sep c a' b h)

lemma afterFirst_self (sep z : Str) (hsep : sep ≠ []) :
    afterFirst sep (sep ++ z) = some z := by
  have hpre : sep.isPrefixOf (sep ++ z) = true :=
    List.isPrefixOf_iff_prefix.mpr (List.prefix_append sep z)
  cases sep with
  | nil => exact absurd rfl hsep
  | cons c s' =>
    rw [List.cons_append] at hpre
    rw [List.cons_append, afterFirst_cons, if_pos hpre, ← List.cons_append,
      List.drop_left]

lemma beforeFirst_append (sep a b : Str) (h : noOccStart sep a b) :
    beforeFirst sep (a ++ b) = a ++ beforeFirst sep b := by
  induction a with
  | nil => rfl
  | cons c a' ih =>
    rw [List.cons_append, beforeFirst_cons,
      if_neg (noOccStart_head sep c a' b h), ih (noOccStart_cons sep c a' b h),
      List.cons_append]

lemma noOccStart_single (c : Char) (a b : Str) (hc : c ∉ a) :
    noOccStart [c] a b := by
  induction a with
  | nil => intro i hi; simp at hi
  | cons x a' ih =>
    intro i hi
    match i with
    | 0 =>
      have hne : (c == x) = false := by
        have : c ≠ x := fun hcx => hc (hcx ▸ List.mem_cons_self x a')
        simpa using this
      simp only [List.drop_zero, List.cons_append, List.isPrefixOf, hne,
        Bool.false_and]
      simp
    | i'+1 =>
      have := ih (fun hm => hc (List.mem_cons_of_mem x hm)) i'
        (by simpa using Nat.lt_of_succ_lt_succ hi)
      simpa using this

lemma beforeFirst_comma (c : Char) (x y : Str) (hc : c ∉ x) :
    beforeFirst [c] (x ++ c :: y) = x := by
  rw [beforeFirst_append [c] x (c :: y) (noOccStart_single c x (c :: y) hc)]
  have hp : ([c] : Str).isPrefixOf (c :: y) = true := by
    simp [List.isPrefixOf]
  rw [beforeFirst_cons, if_pos hp, List.append_nil]

lemma containsSub_append (n a b : Str) (hn : n ≠ []) :
    containsSub n (a ++ (n ++ b)) = true := by
  induction a with
  | nil =>
    have hpre : n.isPrefixOf (n ++ b) = true :=
      List.isPrefixOf_iff_prefix.mpr (List.prefix_append n b)
    cases n with
    | nil => exact absurd rfl hn
    | cons c s' =>
      rw [List.nil_append, List.cons_append, containsSub_cons,
        ← List.cons_append, hpre, Bool.true_or]
  | cons x a' ih =>
    rw [List.cons_append, containsSub_cons, ih, Bool.or_true]

/-- Correct extraction from a well-formed processed-invoice log line:
the text before the first `"ID: "` contains no occurrence of `"ID: "`,
the id contains no `"ID: "` occurrence and no comma, and the id is
whitespace-clean. -/
lemma extractProcessedId_correct (a id_ w : Str)
    (ha : noOccStart idMarker a (idMarker ++ (id_ ++ ',' :: w)))
    (hid : noOccStart idMarker id_ (',' :: w))
    (hc : ',' ∉ id_) (hs : pyStrip id_ = id_) :
    extractProcessedId (a ++ (idMarker ++ (id_ ++ ',' :: w))) = some id_ := by
  rw [extractProcessedId_eq]
  unfold amendExtractProcessed
  rw [afterFirst_append idMarker a _ ha,
    afterFirst_self idMarker _ (by decide), Option.map_some']
  rw [beforeFirst_append idMarker id_ (',' :: w) hid]
  have hno : idMarker.isPrefixOf (',' :: w) = false := by
    simp [idMarker, str, List.isPrefixOf]
  rw [show beforeFirst idMarker (',' :: w) =
      ',' :: beforeFirst idMarker w by simp [beforeFirst, hno]]
  rw [beforeFirst_comma ',' id_ (beforeFirst idMarker w) hc, hs]

/-! ### Lemmas about the ledger sets -/

lemma load_processed_eq_amend (file : Option (List Str)) :
    load_processed_invoices file = amendLoadProcessed file := by
  have h : extractProcessedId = amendExtractProcessed :=
    funext extractProcessedId_eq
  cases file with
  | none => rfl
  | some lines =>
    simp [load_processed_invoices, amendLoadProcessed, loadProcessedLines, h]

lemma load_downloaded_eq_amend (file : Option (List Str)) :
    load_downloaded_attachments file = amendLoadDownloaded file := by
  have h : extractDownloaded = amendExtractDownloaded :=
    funext extractDownloaded_eq
  cases file with
  | none => rfl
  | some lines =>
    simp [load_downloaded_attachments, amendLoadDownloaded,
      loadDownloadedLines, h]

lemma loadProcessedLines_mono (L M : List Str) :
    loadProcessedLines L ⊆ loadProcessedLines (L ++ M) := by
  intro x hx
  simp only [loadProcessedLines, List.mem_toFinset, List.filter_append,
    List.filterMap_append, List.mem_append] at hx ⊢
  exact Or.inl hx

lemma loadProcessedLines_mem (lines : List Str) (line id_ : Str)
    (hline : line ∈ lines) (hmark : containsSub procMarker line = true)
    (hex : extractProcessedId line = some id_) :
    id_ ∈ loadProcessedLines lines := by
  simp only [loadProcessedLines, List.mem_toFinset, List.mem_filterMap]
  exact ⟨line, List.mem_filter.mpr ⟨hline, hmark⟩, hex⟩

lemma renderFrom_mem (pfx : Nat → Str) (P : Str) (lm : Str × Str)
    (hpfx : ∀ j, pfx j = P) :
    ∀ (msgs : List (Str × Str)) (k : Nat), lm ∈ msgs →
      (P ++ str " - " ++ lm.1 ++ str " - " ++ lm.2) ∈
        renderFrom pfx k msgs := by
  intro msgs
  induction msgs with
  | nil => intro k h; simp at h
  | cons x rest ih =>
    intro k h
    rw [renderFrom]
    rcases List.mem_cons.mp h with h1 | h2
    · subst h1
      rw [hpfx k]
      exact List.mem_cons_self _ _
    · exact List.mem_cons_of_mem _ (ih (k + 1) h2)

lemma fileAt_eq (log0 : Option (List Str)) (pfx : Nat → Str) (tr : List Ev)
    (h : logMsgs tr ≠ []) :
    fileAt log0 pfx tr = some (log0.getD [] ++ renderLog pfx tr) := by
  unfold fileAt
  exact if_neg fun hc => h hc.2

/-! ### Shape of the traces of the API steps -/

lemma basic_facts (e : Ev) (h : Ev.basic e = true) :
    Ev.attachOf e = none ∧ Ev.pageOf e = none ∧ Ev.isTokenEv e = false ∧
      Ev.isConnEv e = false ∧ Ev.isContactsEv e = false := by
  cases e <;> simp_all [Ev.basic, Ev.attachOf, Ev.pageOf, Ev.isTokenEv,
    Ev.isConnEv, Ev.isContactsEv]

lemma get_token_shape (cfg : Config) (o : Oracle) :
    (∀ e ∈ (get_token cfg o).tr, e = tokenReqEv cfg ∨ Ev.basic e = true) ∧
    (get_token cfg o).tr.countP Ev.isTokenEv = 1 := by
  unfold get_token
  split <;>
    refine ⟨fun e he => ?_, by
      simp [List.countP_cons, List.countP_nil, Ev.isTokenEv, tokenReqEv]⟩ <;>
    · fin_cases he <;> simp [Ev.basic]

lemma get_tenant_shape (o : Oracle) :
    (∀ e ∈ (get_tenant_id o).tr, e = Ev.reqConnections ∨ Ev.basic e = true) ∧
    (get_tenant_id o).tr.countP Ev.isConnEv = 1 := by
  unfold get_tenant_id
  split
  · split <;>
      refine ⟨fun e he => ?_, by
        simp [List.countP_cons, List.countP_nil, Ev.isConnEv]⟩ <;>
      · fin_cases he <;> simp [Ev.basic]
  · refine ⟨fun e he => ?_, by
      simp [List.countP_cons, List.countP_nil, Ev.isConnEv]⟩
    fin_cases he <;> simp [Ev.basic]

lemma get_contact_shape (cfg : Config) (o : Oracle) :
    (∀ e ∈ (get_contact_id cfg o).tr,
      e = Ev.reqContacts (whereName cfg.SUPPLIER_NAME) ∨ Ev.basic e = true) ∧
    (get_contact_id cfg o).tr.countP Ev.isContactsEv = 1 := by
  unfold get_contact_id
  split
  · split <;>
      refine ⟨fun e he => ?_, by
        simp [List.countP_cons, List.countP_nil, Ev.isContactsEv]⟩ <;>
      · fin_cases he <;> simp [Ev.basic]
  · refine ⟨fun e he => ?_, by
      simp [List.countP_cons, List.countP_nil, Ev.isContactsEv]⟩
    fin_cases he <;> simp [Ev.basic]

/-! ### The pagination loop -/

lemma invLoop_shape (o : Oracle) (wp : Str) :
    ∀ (fuel page : Nat) (acc : List Invoice) (tr : List Ev),
      ∃ tl m, (invLoop o wp fuel page acc tr).tr = tr ++ tl ∧
        (∀ e ∈ tl, (∃ p, e = Ev.reqInvoicePage wp (str "Date DESC") p) ∨
          Ev.basic e = true) ∧
        tl.filterMap Ev.pageOf = List.range' page m := by
  intro fuel
  induction fuel with
  | zero =>
    intro page acc tr
    exact ⟨[], 0, by simp [invLoop, LoopOut.tr], by simp, by simp⟩
  | succ f ih =>
    intro page acc tr
    by_cases h200 : (o.pageResp page).status = 200
    · by_cases hemp : (o.pageResp page).invoices = []
      · refine ⟨[Ev.reqInvoicePage wp (str "Date DESC") page], 1, ?_, ?_, ?_⟩
        · simp [invLoop, h200, hemp, LoopOut.tr]
        · intro e he
          fin_cases he
          exact Or.inl ⟨page, rfl⟩
        · simp [Ev.pageOf, List.range']
      · obtain ⟨tl, m, h1, h2, h3⟩ :=
          ih (page + 1) (acc ++ (o.pageResp page).invoices)
            (tr ++ [Ev.reqInvoicePage wp (str "Date DESC") page,
              .printMsg (msgFetchedPage page (o.pageResp page).invoices.length
                (acc ++ (o.pageResp page).invoices).length),
              .logRec INFO (msgFetchedPage page
                (o.pageResp page).invoices.length
                (acc ++ (o.pageResp page).invoices).length),
              .sleep])
        refine ⟨[Ev.reqInvoicePage wp (str "Date DESC") page,
          .printMsg (msgFetchedPage page (o.pageResp page).invoices.length
            (acc ++ (o.pageResp page).invoices).length),
          .logRec INFO (msgFetchedPage page (o.pageResp page).invoices.length
            (acc ++ (o.pageResp page).invoices).length),
          .sleep] ++ tl, m + 1, ?_, ?_, ?_⟩
        · simp only [invLoop, if_pos h200, if_neg hemp]
          rw [h1, List.append_assoc]
        · intro e he
          rcases List.mem_append.mp he with h | h
          · fin_cases h
            · exact Or.inl ⟨page, rfl⟩
            · exact Or.inr rfl
            · exact Or.inr rfl
            · exact Or.inr rfl
          · exact h2 e h
        · rw [List.filterMap_append, h3, List.range'_succ]
          simp [Ev.pageOf]
    · refine ⟨[Ev.reqInvoicePage wp (str "Date DESC") page,
        .printMsg (msgInvFail (o.pageResp page).status (o.pageResp page).text),
        .logRec ERROR (msgInvFail (o.pageResp page).status
          (o.pageResp page).text),
        .exited 1], 1, ?_, ?_, ?_⟩
      · simp [invLoop, h200, LoopOut.tr]
      · intro e he
        fin_cases he
        · exact Or.inl ⟨page, rfl⟩
        · exact Or.inr rfl
        · exact Or.inr rfl
        · exact Or.inr rfl
      · simp [Ev.pageOf, List.range']

lemma invLoop_done (o : Oracle) (wp : Str) :
    ∀ (j page : Nat) (acc : List Invoice) (tr : List Ev) (fuel : Nat),
      j < fuel →
      (∀ i, i < j → (o.pageResp (page + i)).status = 200 ∧
        (o.pageResp (page + i)).invoices ≠ []) →
      (o.pageResp (page + j)).status = 200 →
      (o.pageResp (page + j)).invoices = [] →
      ∃ tl, invLoop o wp fuel page acc tr =
          .done (acc ++ ((List.range' page j).map fun p =>
            (o.pageResp p).invoices).flatten) (tr ++ tl) ∧
        tl.filterMap Ev.pageOf = List.range' page (j + 1) := by
  intro j
  induction j with
  | zero =>
    intro page acc tr fuel hf h200s h200 hemp
    match fuel, hf with
    | f+1, _ =>
      simp only [Nat.add_zero] at h200 hemp
      refine ⟨[Ev.reqInvoicePage wp (str "Date DESC") page], ?_, ?_⟩
      · simp [invLoop, h200, hemp]
      · simp [Ev.pageOf, List.range']
  | succ j ih =>
    intro page acc tr fuel hf hs h200 hemp
    match fuel, hf with
    | f+1, hf =>
      have h0 := hs 0 (Nat.succ_pos j)
      simp only [Nat.add_zero] at h0
      have hsh : ∀ i, i < j → (o.pageResp (page + 1 + i)).status = 200 ∧
          (o.pageResp (page + 1 + i)).invoices ≠ [] := by
        intro i hi
        have heq : page + 1 + i = page + (i + 1) := by omega
        rw [heq]
        exact hs (i + 1) (by omega)
      have heq1 : page + 1 + j = page + (j + 1) := by omega
      obtain ⟨tl, h1, h2⟩ :=
        ih (page + 1) (acc ++ (o.pageResp page).invoices)
          (tr ++ [Ev.reqInvoicePage wp (str "Date DESC") page,
            .printMsg (msgFetchedPage page (o.pageResp page).invoices.length
              (acc ++ (o.pageResp page).invoices).length),
            .logRec INFO (msgFetchedPage page
              (o.pageResp page).invoices.length
              (acc ++ (o.pageResp page).invoices).length),
            .sleep]) f (by omega) hsh (by rw [heq1]; exact h200)
          (by rw [heq1]; exact hemp)
      refine ⟨[Ev.reqInvoicePage wp (str "Date DESC") page,
        .printMsg (msgFetchedPage page (o.pageResp page).invoices.length
          (acc ++ (o.pageResp page).invoices).length),
        .logRec INFO (msgFetchedPage page (o.pageResp page).invoices.length
          (acc ++ (o.pageResp page).invoices).length),
        .sleep] ++ tl, ?_, ?_⟩
      · simp only [invLoop, if_pos h0.1, if_neg h0.2]
        rw [h1, List.range'_succ]
        simp only [List.map_cons, List.flatten_cons, List.append_assoc]
      · rw [List.filterMap_append, h2]
        rw [show List.range' page (j + 1 + 1) =
          page :: List.range' (page + 1) (j + 1) from List.range'_succ _ _ 1]
        simp [Ev.pageOf]

lemma invLoop_fail (o : Oracle) (wp : Str) :
    ∀ (j page : Nat) (acc : List Invoice) (tr : List Ev) (fuel : Nat),
      j < fuel →
      (∀ i, i < j → (o.pageResp (page + i)).status = 200 ∧
        (o.pageResp (page + i)).invoices ≠ []) →
      (o.pageResp (page + j)).status ≠ 200 →
      ∃ tl, invLoop o wp fuel page acc tr = .exit (tr ++ tl) ∧
        Ev.exited 1 ∈ tl ∧
        Ev.printMsg (msgInvFail (o.pageResp (page + j)).status
          (o.pageResp (page + j)).text) ∈ tl ∧
        Ev.logRec ERROR (msgInvFail (o.pageResp (page + j)).status
          (o.pageResp (page + j)).text) ∈ tl := by
  intro j
  induction j with
  | zero =>
    intro page acc tr fuel hf h200s hfail
    match fuel, hf with
    | f+1, _ =>
      simp only [Nat.add_zero] at hfail ⊢
      refine ⟨[Ev.reqInvoicePage wp (str "Date DESC") page,
        .printMsg (msgInvFail (o.pageResp page).status (o.pageResp page).text),
        .logRec ERROR (msgInvFail (o.pageResp page).status
          (o.pageResp page).text),
        .exited 1], by simp [invLoop, hfail], ?_, ?_, ?_⟩ <;> simp
  | succ j ih =>
    intro page acc tr fuel hf hs hfail
    match fuel, hf with
    | f+1, hf =>
      have h0 := hs 0 (Nat.succ_pos j)
      simp only [Nat.add_zero] at h0
      have hsh : ∀ i, i < j → (o.pageResp (page + 1 + i)).status = 200 ∧
          (o.pageResp (page + 1 + i)).invoices ≠ [] := by
        intro i hi
        have heq : page + 1 + i = page + (i + 1) := by omega
        rw [heq]
        exact hs (i + 1) (by omega)
      have heq1 : page + 1 + j = page + (j + 1) := by omega
      obtain ⟨tl, h1, h2, h3, h4⟩ :=
        ih (page + 1) (acc ++ (o.pageResp page).invoices)
          (tr ++ [Ev.reqInvoicePage wp (str "Date DESC") page,
            .printMsg (msgFetchedPage page (o.pageResp page).invoices.length
              (acc ++ (o.pageResp page).invoices).length),
            .logRec INFO (msgFetchedPage page
              (o.pageResp page).invoices.length
              (acc ++ (o.pageResp page).invoices).length),
            .sleep]) f (by omega) hsh (by rw [heq1]; exact hfail)
      rw [heq1] at h3 h4
      refine ⟨[Ev.reqInvoicePage wp (str "Date DESC") page,
        .printMsg (msgFetchedPage page (o.pageResp page).invoices.length
          (acc ++ (o.pageResp page).invoices).length),
        .logRec INFO (msgFetchedPage page (o.pageResp page).invoices.length
          (acc ++ (o.pageResp page).invoices).length),
        .sleep] ++ tl, ?_, ?_, ?_, ?_⟩
      · simp only [invLoop, if_pos h0.1, if_neg h0.2]
        rw [h1, List.append_assoc]
      · exact List.mem_append_right _ h2
      · exact List.mem_append_right _ h3
      · exact List.mem_append_right _ h4

/-! ### The download loop -/

lemma download_skip (o : Oracle) (iid f num : Str) (dset : Finset Str)
    (h : uniqueFileName num f ∈ dset) :
    download_invoice_attachment o iid f num dset =
      [.printMsg (msgSkipping (uniqueFileName num f)),
       .logRec INFO (msgSkipped (uniqueFileName num f))] := by
  unfold download_invoice_attachment
  rw [if_pos h]

lemma download_shape (o : Oracle) (iid f num : Str) (dset : Finset Str) :
    ∀ e ∈ download_invoice_attachment o iid f num dset,
      e = Ev.reqAttachDl iid f ∨
      (∃ c, e = Ev.writeFile (uniqueFileName num f) c) ∨
      Ev.basic e = true := by
  unfold download_invoice_attachment
  split
  · intro e he
    fin_cases he <;> exact Or.inr (Or.inr rfl)
  · split
    · intro e he
      fin_cases he
      · exact Or.inl rfl
      · exact Or.inr (Or.inl ⟨_, rfl⟩)
      · exact Or.inr (Or.inr rfl)
      · exact Or.inr (Or.inr rfl)
      · exact Or.inr (Or.inr rfl)
    · intro e he
      fin_cases he
      · exact Or.inl rfl
      · exact Or.inr (Or.inr rfl)
      · exact Or.inr (Or.inr rfl)
      · exact Or.inr (Or.inr rfl)

lemma attachLoop_shape (o : Oracle) (iid num : Str) (dset : Finset Str) :
    ∀ (atts : List Attachment), ∀ e ∈ attachLoop o iid num dset atts,
      (∃ f, e = Ev.reqAttachDl iid f) ∨ (∃ n c, e = Ev.writeFile n c) ∨
        Ev.basic e = true := by
  intro atts
  induction atts with
  | nil => intro e he; simp [attachLoop] at he
  | cons a rest ih =>
    intro e he
    rw [attachLoop] at he
    rcases List.mem_append.mp he with h | h
    · rcases List.mem_append.mp h with h1 | h1
      · fin_cases h1 <;> exact Or.inr (Or.inr rfl)
      · rcases download_shape o iid a.FileName num dset e h1 with h2 | ⟨c, h2⟩ | h2
        · exact Or.inl ⟨a.FileName, h2⟩
        · exact Or.inr (Or.inl ⟨_, c, h2⟩)
        · exact Or.inr (Or.inr h2)
    · exact ih e h

/-! ### The invoice-processing loop -/

lemma procInvoice_skip (o : Oracle) (proc dset : Finset Str) (inv : Invoice)
    (h : inv.InvoiceID ∈ proc) :
    (procInvoice o proc dset inv).1 =
      [.printMsg (msgSkipInv (invNum inv) inv.InvoiceID),
       .logRec INFO (msgSkippedInv (invNum inv) inv.InvoiceID)] := by
  unfold procInvoice
  rw [if_pos h]

lemma procInvoice_shape (o : Oracle) (proc dset : Finset Str) (inv : Invoice) :
    ∀ e ∈ (procInvoice o proc dset inv).1,
      ((e = Ev.reqAttachMeta inv.InvoiceID ∨
        (∃ f, e = Ev.reqAttachDl inv.InvoiceID f)) ∧ inv.InvoiceID ∉ proc) ∨
      (∃ n c, e = Ev.writeFile n c) ∨ Ev.basic e = true := by
  unfold procInvoice
  split
  · intro e he
    fin_cases he <;> exact Or.inr (Or.inr rfl)
  · rename_i hnp
    split
    · split
      · intro e he
        rcases List.mem_append.mp he with h | h
        · simp only [procHd] at h
          fin_cases h
          · exact Or.inr (Or.inr rfl)
          · exact Or.inr (Or.inr rfl)
          · exact Or.inl ⟨Or.inl rfl, hnp⟩
        · fin_cases h <;> exact Or.inr (Or.inr rfl)
      · intro e he
        rcases List.mem_append.mp he with h | h
        · simp only [procHd] at h
          fin_cases h
          · exact Or.inr (Or.inr rfl)
          · exact Or.inr (Or.inr rfl)
          · exact Or.inl ⟨Or.inl rfl, hnp⟩
        · rcases attachLoop_shape o inv.InvoiceID (invNum inv) dset _ e h with
            ⟨f, h2⟩ | h2 | h2
          · exact Or.inl ⟨Or.inr ⟨f, h2⟩, hnp⟩
          · exact Or.inr (Or.inl h2)
          · exact Or.inr (Or.inr h2)
    · intro e he
      rcases List.mem_append.mp he with h | h
      · simp only [procHd] at h
        fin_cases h
        · exact Or.inr (Or.inr rfl)
        · exact Or.inr (Or.inr rfl)
        · exact Or.inl ⟨Or.inl rfl, hnp⟩
      · fin_cases h <;> exact Or.inr (Or.inr rfl)

lemma procInvoice_meta_mem (o : Oracle) (proc dset : Finset Str)
    (inv : Invoice) (h : inv.InvoiceID ∉ proc) :
    Ev.reqAttachMeta inv.InvoiceID ∈ (procInvoice o proc dset inv).1 := by
  have hm : Ev.reqAttachMeta inv.InvoiceID ∈ procHd inv := by simp [procHd]
  unfold procInvoice
  rw [if_neg h]
  split
  · split <;> exact List.mem_append_left _ hm
  · exact List.mem_append_left _ hm

lemma procInvoice_sublist (o : Oracle) (proc dset : Finset Str)
    (inv : Invoice) (h : inv.InvoiceID ∉ proc) :
    [Ev.logRec INFO (msgProcessing (invNum inv) inv.InvoiceID (invDate inv)),
     Ev.reqAttachMeta inv.InvoiceID].Sublist (procInvoice o proc dset inv).1 := by
  have hs : [Ev.logRec INFO (msgProcessing (invNum inv) inv.InvoiceID
      (invDate inv)), Ev.reqAttachMeta inv.InvoiceID].Sublist (procHd inv) :=
    .cons _ (.cons₂ _ (.cons₂ _ (List.nil_sublist [])))
  unfold procInvoice
  rw [if_neg h]
  split
  · split <;> exact hs.trans (List.sublist_append_left _ _)
  · exact hs.trans (List.sublist_append_left _ _)

lemma procLoop_shape (o : Oracle) (proc dset : Finset Str) :
    ∀ (invs : List Invoice), ∀ e ∈ (procLoop o proc dset invs).1,
      (∃ inv, inv ∈ invs ∧
        (e = Ev.reqAttachMeta inv.InvoiceID ∨
         (∃ f, e = Ev.reqAttachDl inv.InvoiceID f)) ∧ inv.InvoiceID ∉ proc) ∨
      (∃ n c, e = Ev.writeFile n c) ∨ Ev.basic e = true := by
  intro invs
  induction invs with
  | nil => intro e he; simp [procLoop] at he
  | cons inv rest ih =>
    intro e he
    rw [procLoop] at he
    rcases List.mem_append.mp he with h | h
    · rcases procInvoice_shape o proc dset inv e h with ⟨hd, hnp⟩ | h2 | h2
      · exact Or.inl ⟨inv, List.mem_cons_self _ _, hd, hnp⟩
      · exact Or.inr (Or.inl h2)
      · exact Or.inr (Or.inr h2)
    · rcases ih e h with ⟨inv', hmem, hd, hnp⟩ | h2 | h2
      · exact Or.inl ⟨inv', List.mem_cons_of_mem _ hmem, hd, hnp⟩
      · exact Or.inr (Or.inl h2)
      · exact Or.inr (Or.inr h2)

lemma procLoop_meta_mem (o : Oracle) (proc dset : Finset Str) :
    ∀ (invs : List Invoice) (inv : Invoice), inv ∈ invs →
      inv.InvoiceID ∉ proc →
      Ev.reqAttachMeta inv.InvoiceID ∈ (procLoop o proc dset invs).1 := by
  intro invs
  induction invs with
  | nil => intro inv h; simp at h
  | cons x rest ih =>
    intro inv hmem hnp
    rw [procLoop]
    rcases List.mem_cons.mp hmem with h | h
    · subst h
      exact List.mem_append_left _ (procInvoice_meta_mem o proc dset inv hnp)
    · exact List.mem_append_right _ (ih inv h hnp)

lemma procLoop_sublist (o : Oracle) (proc dset : Finset Str) :
    ∀ (invs : List Invoice) (inv : Invoice), inv ∈ invs →
      inv.InvoiceID ∉ proc →
      [Ev.logRec INFO (msgProcessing (invNum inv) inv.InvoiceID (invDate inv)),
       Ev.reqAttachMeta inv.InvoiceID].Sublist (procLoop o proc dset invs).1 := by
  intro invs
  induction invs with
  | nil => intro inv h; simp at h
  | cons x rest ih =>
    intro inv hmem hnp
    rw [procLoop]
    rcases List.mem_cons.mp hmem with h | h
    · subst h
      exact (procInvoice_sublist o proc dset inv hnp).trans
        (List.sublist_append_left _ _)
    · exact (ih inv h hnp).trans (List.sublist_append_right _ _)

lemma attachOf_some (e : Ev) (j : Str) (h : Ev.attachOf e = some j) :
    e = Ev.reqAttachMeta j ∨ ∃ f, e = Ev.reqAttachDl j f := by
  cases e <;> simp [Ev.attachOf] at h
  · exact Or.inl (by rw [h])
  · exact Or.inr ⟨_, by rw [h]⟩

lemma procLoop_attach (o : Oracle) (proc dset : Finset Str)
    (invs : List Invoice) :
    ∀ e ∈ (procLoop o proc dset invs).1, ∀ j, Ev.attachOf e = some j →
      j ∉ proc ∧ ∃ inv ∈ invs, inv.InvoiceID = j := by
  intro e he j hj
  rcases procLoop_shape o proc dset invs e he with
    ⟨inv, hmem, hd, hnp⟩ | ⟨n, c, h2⟩ | h2
  · rcases hd with h1 | ⟨f, h1⟩ <;> subst h1 <;>
      simp only [Ev.attachOf, Option.some.injEq] at hj <;> subst hj <;>
      exact ⟨hnp, inv, hmem, rfl⟩
  · subst h2
    simp [Ev.attachOf] at hj
  · rw [(basic_facts e h2).1] at hj
    simp at hj

/-! ### The non-fatal failure paths print and log the error -/

lemma download_fail_msgs (o : Oracle) (iid f num : Str) (dset : Finset Str)
    (hd : uniqueFileName num f ∉ dset)
    (hf : ¬ (o.dlResp iid f).status = 200) :
    Ev.printMsg (msgDlFail f (o.dlResp iid f).status (o.dlResp iid f).text) ∈
      download_invoice_attachment o iid f num dset ∧
    Ev.logRec ERROR (msgDlFail f (o.dlResp iid f).status
      (o.dlResp iid f).text) ∈ download_invoice_attachment o iid f num dset := by
  unfold download_invoice_attachment
  rw [if_neg hd, if_neg hf]
  exact ⟨by simp, by simp⟩

lemma attachLoop_mem_of (o : Oracle) (iid num : Str) (dset : Finset Str)
    (a : Attachment) (e : Ev) :
    ∀ atts : List Attachment, a ∈ atts →
      e ∈ download_invoice_attachment o iid a.FileName num dset →
      e ∈ attachLoop o iid num dset atts := by
  intro atts
  induction atts with
  | nil => intro h _; simp at h
  | cons x rest ih =>
    intro hmem he
    rw [attachLoop]
    rcases List.mem_cons.mp hmem with h | h
    · subst h
      exact List.mem_append_left _ (List.mem_append_right _ he)
    · exact List.mem_append_right _ (ih h he)

lemma procInvoice_metafail_msgs (o : Oracle) (proc dset : Finset Str)
    (inv : Invoice) (hnp : inv.InvoiceID ∉ proc)
    (hf : ¬ (o.metaResp inv.InvoiceID).status = 200) :
    Ev.printMsg (msgAttachFail (invNum inv) (o.metaResp inv.InvoiceID).status
      (o.metaResp inv.InvoiceID).text) ∈ (procInvoice o proc dset inv).1 ∧
    Ev.logRec ERROR (msgAttachFail (invNum inv)
      (o.metaResp inv.InvoiceID).status (o.metaResp inv.InvoiceID).text) ∈
      (procInvoice o proc dset inv).1 := by
  unfold procInvoice
  rw [if_neg hnp, if_neg hf]
  exact ⟨List.mem_append_right _ (by simp),
    List.mem_append_right _ (by simp)⟩

lemma procInvoice_dlfail_msgs (o : Oracle) (proc dset : Finset Str)
    (inv : Invoice) (a : Attachment) (hnp : inv.InvoiceID ∉ proc)
    (h200 : (o.metaResp inv.InvoiceID).status = 200)
    (hatt : a ∈ (o.metaResp inv.InvoiceID).attachments)
    (hd : uniqueFileName (invNum inv) a.FileName ∉ dset)
    (hf : ¬ (o.dlResp inv.InvoiceID a.FileName).status = 200) :
    Ev.printMsg (msgDlFail a.FileName
      (o.dlResp inv.InvoiceID a.FileName).status
      (o.dlResp inv.InvoiceID a.FileName).text) ∈
      (procInvoice o proc dset inv).1 ∧
    Ev.logRec ERROR (msgDlFail a.FileName
      (o.dlResp inv.InvoiceID a.FileName).status
      (o.dlResp inv.InvoiceID a.FileName).text) ∈
      (procInvoice o proc dset inv).1 := by
  have hne : ¬ (o.metaResp inv.InvoiceID).attachments = [] :=
    List.ne_nil_of_mem hatt
  have hmsg := download_fail_msgs o inv.InvoiceID a.FileName (invNum inv)
    dset hd hf
  unfold procInvoice
  rw [if_neg hnp, if_pos h200, if_neg hne]
  exact ⟨List.mem_append_right _ (attachLoop_mem_of o inv.InvoiceID
      (invNum inv) dset a _ _ hatt hmsg.1),
    List.mem_append_right _ (attachLoop_mem_of o inv.InvoiceID
      (invNum inv) dset a _ _ hatt hmsg.2)⟩

lemma procLoop_mem_of (o : Oracle) (proc dset : Finset Str) (e : Ev) :
    ∀ (invs : List Invoice) (inv : Invoice), inv ∈ invs →
      e ∈ (procInvoice o proc dset inv).1 →
      e ∈ (procLoop o proc dset invs).1 := by
  intro invs
  induction invs with
  | nil => intro inv h _; simp at h
  | cons x rest ih =>
    intro inv hmem he
    rw [procLoop]
    rcases List.mem_cons.mp hmem with h | h
    · subst h
      exact List.mem_append_left _ he
    · exact List.mem_append_right _ (ih inv h he)

/-! ### Outcomes of the individual API steps -/

lemma get_token_ok (cfg : Config) (o : Oracle)
    (h : o.tokenResp.status = 200) :
    (get_token cfg o).ok? = some o.tokenResp.access_token := by
  simp [get_token, h]

lemma get_token_fail (cfg : Config) (o : Oracle)
    (h : ¬ o.tokenResp.status = 200) :
    (get_token cfg o).ok? = none ∧ Ev.exited 1 ∈ (get_token cfg o).tr ∧
    Ev.printMsg (msgTokenFail o.tokenResp.status o.tokenResp.text) ∈
      (get_token cfg o).tr ∧
    Ev.logRec ERROR (msgTokenFail o.tokenResp.status o.tokenResp.text) ∈
      (get_token cfg o).tr := by
  simp [get_token, h]

lemma get_tenant_ok (o : Oracle) (t : Str) (ts : List Str)
    (h : o.connResp.status = 200) (hts : o.connResp.tenants = t :: ts) :
    (get_tenant_id o).ok? = some t := by
  simp [get_tenant_id, h, hts]

lemma get_tenant_fail_status (o : Oracle) (h : ¬ o.connResp.status = 200) :
    (get_tenant_id o).ok? = none ∧ Ev.exited 1 ∈ (get_tenant_id o).tr ∧
    Ev.printMsg (msgTenantFail o.connResp.status o.connResp.text) ∈
      (get_tenant_id o).tr ∧
    Ev.logRec ERROR (msgTenantFail o.connResp.status o.connResp.text) ∈
      (get_tenant_id o).tr := by
  simp [get_tenant_id, h]

lemma get_contact_ok (cfg : Config) (o : Oracle) (c : Contact)
    (cs : List Contact) (h : o.contactsResp.status = 200)
    (hcs : o.contactsResp.contacts = c :: cs) :
    (get_contact_id cfg o).ok? = some c.ContactID := by
  simp [get_contact_id, h, hcs]

lemma get_contact_fail_status (cfg : Config) (o : Oracle)
    (h : ¬ o.contactsResp.status = 200) :
    (get_contact_id cfg o).ok? = none ∧
    Ev.exited 1 ∈ (get_contact_id cfg o).tr ∧
    Ev.printMsg (msgContactFail o.contactsResp.status o.contactsResp.text) ∈
      (get_contact_id cfg o).tr ∧
    Ev.logRec ERROR (msgContactFail o.contactsResp.status
      o.contactsResp.text) ∈ (get_contact_id cfg o).tr := by
  simp [get_contact_id, h]

lemma get_contact_fail_empty (cfg : Config) (o : Oracle)
    (h : o.contactsResp.status = 200) (hcs : o.contactsResp.contacts = []) :
    (get_contact_id cfg o).ok? = none ∧
    Ev.exited 1 ∈ (get_contact_id cfg o).tr ∧
    Ev.printMsg (msgNoContact cfg.SUPPLIER_NAME) ∈ (get_contact_id cfg o).tr ∧
    Ev.logRec ERROR (msgNoContact cfg.SUPPLIER_NAME) ∈
      (get_contact_id cfg o).tr := by
  simp [get_contact_id, h, hcs]

lemma get_contact_ok_inv (cfg : Config) (o : Oracle) (cid : Str)
    (h : (get_contact_id cfg o).ok? = some cid) :
    ∃ c cs, o.contactsResp.contacts = c :: cs ∧ c.ContactID = cid := by
  unfold get_contact_id at h
  by_cases h200 : o.contactsResp.status = 200
  · rw [if_pos h200] at h
    cases hcs : o.contactsResp.contacts with
    | nil =>
      rw [hcs] at h
      simp at h
    | cons c cs =>
      rw [hcs] at h
      simp only [Option.some.injEq] at h
      exact ⟨c, cs, rfl, h⟩
  · rw [if_neg h200] at h
    simp at h

lemma get_invoices_done_inv (cfg : Config) (o : Oracle) (cid : Str)
    (fuel : Nat) (invs : List Invoice) (ltr : List Ev)
    (h : get_invoices_for_contact cfg o cid fuel = .done invs ltr) :
    ∃ tl, invLoop o (whereInvoices cid cfg.startYear cfg.startMonth
        cfg.startDay) fuel 1 [] [] = .done invs tl ∧
      ltr = tl ++ [.printMsg (msgFoundInvoices cfg invs.length),
        .logRec INFO (msgFoundInvoices cfg invs.length)] := by
  unfold get_invoices_for_contact at h
  cases hl : invLoop o (whereInvoices cid cfg.startYear cfg.startMonth
      cfg.startDay) fuel 1 [] [] with
  | done invs0 tl =>
    rw [hl] at h
    simp only [LoopOut.done.injEq] at h
    exact ⟨tl, by rw [h.1], by rw [← h.2, h.1]⟩
  | exit tl =>
    rw [hl] at h
    simp at h
  | spin tl =>
    rw [hl] at h
    simp at h

lemma get_invoices_done_shape (cfg : Config) (o : Oracle) (cid : Str)
    (fuel : Nat) (invs : List Invoice) (ltr : List Ev)
    (h : get_invoices_for_contact cfg o cid fuel = .done invs ltr) :
    (∀ e ∈ ltr, (∃ p, e = Ev.reqInvoicePage (whereInvoices cid cfg.startYear
        cfg.startMonth cfg.startDay) (str "Date DESC") p) ∨
      Ev.basic e = true) ∧
    ∃ m, ltr.filterMap Ev.pageOf = List.range' 1 m := by
  obtain ⟨tl, hl, rfl⟩ := get_invoices_done_inv cfg o cid fuel invs ltr h
  obtain ⟨tl', m, h1, h2, h3⟩ := invLoop_shape o _ fuel 1 [] []
  rw [hl] at h1
  simp only [LoopOut.tr, List.nil_append] at h1
  subst h1
  constructor
  · intro e he
    rcases List.mem_append.mp he with h | h
    · exact h2 e h
    · fin_cases h <;> exact Or.inr rfl
  · refine ⟨m, ?_⟩
    rw [List.filterMap_append, h3]
    simp [Ev.pageOf]

lemma get_invoices_exit_inv (cfg : Config) (o : Oracle) (cid : Str)
    (fuel : Nat) (ltr : List Ev)
    (h : get_invoices_for_contact cfg o cid fuel = .exit ltr) :
    invLoop o (whereInvoices cid cfg.startYear cfg.startMonth cfg.startDay)
      fuel 1 [] [] = .exit ltr := by
  unfold get_invoices_for_contact at h
  cases hl : invLoop o (whereInvoices cid cfg.startYear cfg.startMonth
      cfg.startDay) fuel 1 [] [] with
  | done invs0 tl0 => rw [hl] at h; simp at h
  | exit tl0 => rw [hl] at h; simpa using h
  | spin tl0 => rw [hl] at h; simp at h

lemma get_invoices_spin_inv (cfg : Config) (o : Oracle) (cid : Str)
    (fuel : Nat) (ltr : List Ev)
    (h : get_invoices_for_contact cfg o cid fuel = .spin ltr) :
    invLoop o (whereInvoices cid cfg.startYear cfg.startMonth cfg.startDay)
      fuel 1 [] [] = .spin ltr := by
  unfold get_invoices_for_contact at h
  cases hl : invLoop o (whereInvoices cid cfg.startYear cfg.startMonth
      cfg.startDay) fuel 1 [] [] with
  | done invs0 tl0 => rw [hl] at h; simp at h
  | exit tl0 => rw [hl] at h; simp at h
  | spin tl0 => rw [hl] at h; simpa using h

lemma get_invoices_tr_shape (cfg : Config) (o : Oracle) (cid : Str)
    (fuel : Nat) (ltr : List Ev)
    (h : (get_invoices_for_contact cfg o cid fuel).tr = ltr) :
    (∀ e ∈ ltr,
      (∃ p, e = Ev.reqInvoicePage (whereInvoices cid cfg.startYear
        cfg.startMonth cfg.startDay) (str "Date DESC") p) ∨
      Ev.basic e = true) ∧
    ∃ m, ltr.filterMap Ev.pageOf = List.range' 1 m := by
  subst h
  cases hg : get_invoices_for_contact cfg o cid fuel with
  | done invs0 ltr0 =>
    have hs := get_invoices_done_shape cfg o cid fuel invs0 ltr0 hg
    simpa [LoopOut.tr] using hs
  | exit ltr0 =>
    have hl := get_invoices_exit_inv cfg o cid fuel ltr0 hg
    obtain ⟨tl, m, h1, h2, h3⟩ := invLoop_shape o (whereInvoices cid
      cfg.startYear cfg.startMonth cfg.startDay) fuel 1 [] []
    rw [hl] at h1
    simp only [LoopOut.tr, List.nil_append] at h1
    subst h1
    simpa [LoopOut.tr] using ⟨h2, m, h3⟩
  | spin ltr0 =>
    have hl := get_invoices_spin_inv cfg o cid fuel ltr0 hg
    obtain ⟨tl, m, h1, h2, h3⟩ := invLoop_shape o (whereInvoices cid
      cfg.startYear cfg.startMonth cfg.startDay) fuel 1 [] []
    rw [hl] at h1
    simp only [LoopOut.tr, List.nil_append] at h1
    subst h1
    simpa [LoopOut.tr] using ⟨h2, m, h3⟩

/-! ### Decomposition of a whole run -/

lemma mainRun_decomp (cfg : Config) (o : Oracle) (log0 sfLog : Option (List Str))
    (fuel : Nat) :
    ((get_token cfg o).ok? = none ∧
      mainRun cfg o log0 sfLog fuel = exitOut o log0 (tr1run cfg o)) ∨
    ((get_tenant_id o).ok? = none ∧
      mainRun cfg o log0 sfLog fuel = exitOut o log0 (tr2run cfg o)) ∨
    ((get_contact_id cfg o).ok? = none ∧
      mainRun cfg o log0 sfLog fuel = exitOut o log0 (tr3run cfg o)) ∨
    (∃ cid ltr, (get_contact_id cfg o).ok? = some cid ∧
      get_invoices_for_contact cfg o cid fuel = .exit ltr ∧
      mainRun cfg o log0 sfLog fuel = exitOut o log0 (tr3run cfg o ++ ltr)) ∨
    (∃ cid ltr, (get_contact_id cfg o).ok? = some cid ∧
      get_invoices_for_contact cfg o cid fuel = .spin ltr ∧
      mainRun cfg o log0 sfLog fuel = spinOut o log0 (tr3run cfg o ++ ltr)) ∨
    (∃ cid invs ltr, (get_contact_id cfg o).ok? = some cid ∧
      get_invoices_for_contact cfg o cid fuel = .done invs ltr ∧
      mainRun cfg o log0 sfLog fuel = mainDone o log0 sfLog (tr3run cfg o ++ ltr ++
        [.ensureDir (supplierFolder cfg), .chdir (supplierFolder cfg)])
        invs) := by
  unfold mainRun
  cases hT : (get_token cfg o).ok? with
  | none => exact Or.inl ⟨rfl, rfl⟩
  | some tok =>
    cases hTe : (get_tenant_id o).ok? with
    | none => exact Or.inr (Or.inl ⟨rfl, rfl⟩)
    | some ten =>
      cases hC : (get_contact_id cfg o).ok? with
      | none => exact Or.inr (Or.inr (Or.inl ⟨rfl, rfl⟩))
      | some cid =>
        cases hL : get_invoices_for_contact cfg o cid fuel with
        | exit ltr =>
          exact Or.inr (Or.inr (Or.inr (Or.inl
            ⟨cid, ltr, rfl, hL, by simp only [hL]⟩)))
        | spin ltr =>
          exact Or.inr (Or.inr (Or.inr (Or.inr (Or.inl
            ⟨cid, ltr, rfl, hL, by simp only [hL]⟩))))
        | done invs ltr =>
          exact Or.inr (Or.inr (Or.inr (Or.inr (Or.inr
            ⟨cid, invs, ltr, rfl, hL, by simp only [hL]⟩))))

lemma tr1run_shape (cfg : Config) (o : Oracle) :
    ∀ e ∈ tr1run cfg o, e = tokenReqEv cfg ∨ Ev.basic e = true := by
  intro e he
  simp only [tr1run] at he
  rcases List.mem_append.mp he with h | h
  · simp only [tr0run] at h
    right
    fin_cases h <;> rfl
  · exact (get_token_shape cfg o).1 e h

lemma tr2run_shape (cfg : Config) (o : Oracle) :
    ∀ e ∈ tr2run cfg o,
      e = tokenReqEv cfg ∨ e = Ev.reqConnections ∨ Ev.basic e = true := by
  intro e he
  simp only [tr2run] at he
  rcases List.mem_append.mp he with h | h
  · rcases tr1run_shape cfg o e h with h1 | h1
    · exact Or.inl h1
    · exact Or.inr (Or.inr h1)
  · rcases (get_tenant_shape o).1 e h with h1 | h1
    · exact Or.inr (Or.inl h1)
    · exact Or.inr (Or.inr h1)

lemma tr3run_shape (cfg : Config) (o : Oracle) :
    ∀ e ∈ tr3run cfg o,
      e = tokenReqEv cfg ∨ e = Ev.reqConnections ∨
      e = Ev.reqContacts (whereName cfg.SUPPLIER_NAME) ∨
      Ev.basic e = true := by
  intro e he
  simp only [tr3run] at he
  rcases List.mem_append.mp he with h | h
  · rcases tr2run_shape cfg o e h with h1 | h1 | h1
    · exact Or.inl h1
    · exact Or.inr (Or.inl h1)
    · exact Or.inr (Or.inr (Or.inr h1))
  · rcases (get_contact_shape cfg o).1 e h with h1 | h1
    · exact Or.inr (Or.inr (Or.inl h1))
    · exact Or.inr (Or.inr (Or.inr h1))

lemma listPrefix_ext (a l x : List Ev) (h : ∃ r, l = a ++ r) :
    ∃ r, l ++ x = a ++ r := by
  obtain ⟨r, rfl⟩ := h
  exact ⟨r ++ x, by rw [List.append_assoc]⟩

lemma tr1run_pre (cfg : Config) (o : Oracle) :
    ∃ r, tr1run cfg o = tr0run ++ r := ⟨_, rfl⟩

lemma tr2run_pre (cfg : Config) (o : Oracle) :
    ∃ r, tr2run cfg o = tr0run ++ r :=
  listPrefix_ext _ _ _ (tr1run_pre cfg o)

lemma tr3run_pre (cfg : Config) (o : Oracle) :
    ∃ r, tr3run cfg o = tr0run ++ r :=
  listPrefix_ext _ _ _ (tr2run_pre cfg o)

lemma mainRun_tr0_prefix (cfg : Config) (o : Oracle)
    (log0 sfLog : Option (List Str)) (fuel : Nat) :
    ∃ rest, (mainRun cfg o log0 sfLog fuel).tr = tr0run ++ rest := by
  rcases mainRun_decomp cfg o log0 sfLog fuel with
    ⟨_, hm⟩ | ⟨_, hm⟩ | ⟨_, hm⟩ | ⟨cid, ltr, _, _, hm⟩ |
    ⟨cid, ltr, _, _, hm⟩ | ⟨cid, invs, ltr, _, _, hm⟩ <;> rw [hm]
  · exact tr1run_pre cfg o
  · exact tr2run_pre cfg o
  · exact tr3run_pre cfg o
  · exact listPrefix_ext _ _ _ (tr3run_pre cfg o)
  · exact listPrefix_ext _ _ _ (tr3run_pre cfg o)
  · exact listPrefix_ext _ _ _ (listPrefix_ext _ _ _ (listPrefix_ext _ _ _
      (listPrefix_ext _ _ _ (tr3run_pre cfg o))))

lemma mainRun_logMsgs_ne (cfg : Config) (o : Oracle)
    (log0 sfLog : Option (List Str)) (fuel : Nat) :
    logMsgs (mainRun cfg o log0 sfLog fuel).tr ≠ [] := by
  obtain ⟨rest, h⟩ := mainRun_tr0_prefix cfg o log0 sfLog fuel
  rw [h]
  simp [logMsgs, tr0run, List.filterMap_cons]

lemma shape3_class (cfg : Config) (e : Ev)
    (h : e = tokenReqEv cfg ∨ e = Ev.reqConnections ∨
      e = Ev.reqContacts (whereName cfg.SUPPLIER_NAME) ∨
      Ev.basic e = true) :
    Ev.attachOf e = none ∧ Ev.pageOf e = none := by
  rcases h with rfl | rfl | rfl | hb
  · exact ⟨rfl, rfl⟩
  · exact ⟨rfl, rfl⟩
  · exact ⟨rfl, rfl⟩
  · exact ⟨(basic_facts e hb).1, (basic_facts e hb).2.1⟩

lemma pageOrBasic_class (wp : Str) (e : Ev)
    (h : (∃ p, e = Ev.reqInvoicePage wp (str "Date DESC") p) ∨
      Ev.basic e = true) :
    Ev.isTokenEv e = false ∧ Ev.isConnEv e = false ∧
    Ev.isContactsEv e = false ∧ Ev.attachOf e = none := by
  rcases h with ⟨p, rfl⟩ | hb
  · exact ⟨rfl, rfl, rfl, rfl⟩
  · have hf := basic_facts e hb
    exact ⟨hf.2.2.1, hf.2.2.2.1, hf.2.2.2.2, hf.1⟩

lemma procLoop_class (o : Oracle) (proc dset : Finset Str)
    (invs : List Invoice) :
    ∀ e ∈ (procLoop o proc dset invs).1,
      Ev.isTokenEv e = false ∧ Ev.isConnEv e = false ∧
      Ev.isContactsEv e = false ∧ Ev.pageOf e = none := by
  intro e he
  rcases procLoop_shape o proc dset invs e he with
    ⟨inv, _, hd, _⟩ | ⟨n, c, rfl⟩ | hb
  · rcases hd with rfl | ⟨f, rfl⟩ <;> exact ⟨rfl, rfl, rfl, rfl⟩
  · exact ⟨rfl, rfl, rfl, rfl⟩
  · have hf := basic_facts e hb
    exact ⟨hf.2.2.1, hf.2.2.2.1, hf.2.2.2.2, hf.2.1⟩

lemma mainRun_tr_shape (cfg : Config) (o : Oracle) (log0 sfLog : Option (List Str))
    (fuel : Nat) :
    ∀ e ∈ (mainRun cfg o log0 sfLog fuel).tr,
      e = tokenReqEv cfg ∨ e = Ev.reqConnections ∨
      e = Ev.reqContacts (whereName cfg.SUPPLIER_NAME) ∨
      (∃ p c cs, o.contactsResp.contacts = c :: cs ∧
        e = Ev.reqInvoicePage (whereInvoices c.ContactID cfg.startYear
          cfg.startMonth cfg.startDay) (str "Date DESC") p) ∨
      (∃ j, Ev.attachOf e = some j ∧
        j ∉ (mainRun cfg o log0 sfLog fuel).processedSet ∧
        ∃ inv ∈ (mainRun cfg o log0 sfLog fuel).invoices, inv.InvoiceID = j) ∨
      (∃ n c, e = Ev.writeFile n c) ∨ Ev.basic e = true := by
  intro e he
  rcases mainRun_decomp cfg o log0 sfLog fuel with
    ⟨h1, hm⟩ | ⟨h1, hm⟩ | ⟨h1, hm⟩ | ⟨cid, ltr, hC, hL, hm⟩ |
    ⟨cid, ltr, hC, hL, hm⟩ | ⟨cid, invs, ltr, hC, hL, hm⟩
  · rw [hm] at he
    simp only [exitOut] at he
    rcases tr1run_shape cfg o e he with h | h
    · exact Or.inl h
    · exact Or.inr (Or.inr (Or.inr (Or.inr (Or.inr (Or.inr h)))))
  · rw [hm] at he
    simp only [exitOut] at he
    rcases tr2run_shape cfg o e he with h | h | h
    · exact Or.inl h
    · exact Or.inr (Or.inl h)
    · exact Or.inr (Or.inr (Or.inr (Or.inr (Or.inr (Or.inr h)))))
  · rw [hm] at he
    simp only [exitOut] at he
    rcases tr3run_shape cfg o e he with h | h | h | h
    · exact Or.inl h
    · exact Or.inr (Or.inl h)
    · exact Or.inr (Or.inr (Or.inl h))
    · exact Or.inr (Or.inr (Or.inr (Or.inr (Or.inr (Or.inr h)))))
  · rw [hm] at he
    simp only [exitOut] at he
    obtain ⟨c, cs, hcs, hcid⟩ := get_contact_ok_inv cfg o cid hC
    rcases List.mem_append.mp he with h | h
    · rcases tr3run_shape cfg o e h with h1 | h1 | h1 | h1
      · exact Or.inl h1
      · exact Or.inr (Or.inl h1)
      · exact Or.inr (Or.inr (Or.inl h1))
      · exact Or.inr (Or.inr (Or.inr (Or.inr (Or.inr (Or.inr h1)))))
    · rcases (get_invoices_tr_shape cfg o cid fuel ltr
          (by rw [hL]; rfl)).1 e h with ⟨p, h1⟩ | h1
      · exact Or.inr (Or.inr (Or.inr (Or.inl ⟨p, c, cs, hcs,
          by rw [h1, hcid]⟩)))
      · exact Or.inr (Or.inr (Or.inr (Or.inr (Or.inr (Or.inr h1)))))
  · rw [hm] at he
    simp only [spinOut] at he
    obtain ⟨c, cs, hcs, hcid⟩ := get_contact_ok_inv cfg o cid hC
    rcases List.mem_append.mp he with h | h
    · rcases tr3run_shape cfg o e h with h1 | h1 | h1 | h1
      · exact Or.inl h1
      · exact Or.inr (Or.inl h1)
      · exact Or.inr (Or.inr (Or.inl h1))
      · exact Or.inr (Or.inr (Or.inr (Or.inr (Or.inr (Or.inr h1)))))
    · rcases (get_invoices_tr_shape cfg o cid fuel ltr
          (by rw [hL]; rfl)).1 e h with ⟨p, h1⟩ | h1
      · exact Or.inr (Or.inr (Or.inr (Or.inl ⟨p, c, cs, hcs,
          by rw [h1, hcid]⟩)))
      · exact Or.inr (Or.inr (Or.inr (Or.inr (Or.inr (Or.inr h1)))))
  · obtain ⟨c, cs, hcs, hcid⟩ := get_contact_ok_inv cfg o cid hC
    rw [hm] at he ⊢
    simp only [mainDone, doneTr] at he ⊢
    rcases List.mem_append.mp he with h | h
    · rcases List.mem_append.mp h with h2 | h2
      · rcases List.mem_append.mp h2 with h3 | h3
        · rcases List.mem_append.mp h3 with h4 | h4
          · rcases tr3run_shape cfg o e h4 with h5 | h5 | h5 | h5
            · exact Or.inl h5
            · exact Or.inr (Or.inl h5)
            · exact Or.inr (Or.inr (Or.inl h5))
            · exact Or.inr (Or.inr (Or.inr (Or.inr (Or.inr (Or.inr h5)))))
          · rcases (get_invoices_tr_shape cfg o cid fuel ltr
                (by rw [hL]; rfl)).1 e h4 with ⟨p, h5⟩ | h5
            · exact Or.inr (Or.inr (Or.inr (Or.inl ⟨p, c, cs, hcs,
                by rw [h5, hcid]⟩)))
            · exact Or.inr (Or.inr (Or.inr (Or.inr (Or.inr (Or.inr h5)))))
        · fin_cases h3
          · exact Or.inr (Or.inr (Or.inr (Or.inr (Or.inr (Or.inr rfl)))))
          · exact Or.inr (Or.inr (Or.inr (Or.inr (Or.inr (Or.inr rfl)))))
      · rcases procLoop_shape o _ _ invs e h2 with
          ⟨inv, hmem, hd, hnp⟩ | ⟨n, cc, h3⟩ | h3
        · refine Or.inr (Or.inr (Or.inr (Or.inr (Or.inl
            ⟨inv.InvoiceID, ?_, hnp, inv, hmem, rfl⟩))))
          rcases hd with rfl | ⟨f, rfl⟩ <;> rfl
        · exact Or.inr (Or.inr (Or.inr (Or.inr (Or.inr (Or.inl ⟨n, cc, h3⟩)))))
        · exact Or.inr (Or.inr (Or.inr (Or.inr (Or.inr (Or.inr h3)))))
    · fin_cases h
      · exact Or.inr (Or.inr (Or.inr (Or.inr (Or.inr (Or.inr rfl)))))
      · exact Or.inr (Or.inr (Or.inr (Or.inr (Or.inr (Or.inr rfl)))))

/-! ### At most one request per endpoint -/

lemma tr0run_counts :
    tr0run.countP Ev.isTokenEv = 0 ∧ tr0run.countP Ev.isConnEv = 0 ∧
    tr0run.countP Ev.isContactsEv = 0 := by
  refine ⟨?_, ?_, ?_⟩ <;>
    simp [tr0run, List.countP_cons, List.countP_nil, Ev.isTokenEv,
      Ev.isConnEv, Ev.isContactsEv]

lemma get_token_zero (cfg : Config) (o : Oracle) :
    (get_token cfg o).tr.countP Ev.isConnEv = 0 ∧
    (get_token cfg o).tr.countP Ev.isContactsEv = 0 := by
  unfold get_token
  split <;>
    refine ⟨?_, ?_⟩ <;>
    simp [List.countP_cons, List.countP_nil, Ev.isConnEv, Ev.isContactsEv,
      tokenReqEv]

lemma get_tenant_zero (o : Oracle) :
    (get_tenant_id o).tr.countP Ev.isTokenEv = 0 ∧
    (get_tenant_id o).tr.countP Ev.isContactsEv = 0 := by
  unfold get_tenant_id
  split
  · split <;>
      refine ⟨?_, ?_⟩ <;>
      simp [List.countP_cons, List.countP_nil, Ev.isTokenEv, Ev.isContactsEv]
  · refine ⟨?_, ?_⟩ <;>
      simp [List.countP_cons, List.countP_nil, Ev.isTokenEv, Ev.isContactsEv]

lemma get_contact_zero (cfg : Config) (o : Oracle) :
    (get_contact_id cfg o).tr.countP Ev.isTokenEv = 0 ∧
    (get_contact_id cfg o).tr.countP Ev.isConnEv = 0 := by
  unfold get_contact_id
  split
  · split <;>
      refine ⟨?_, ?_⟩ <;>
      simp [List.countP_cons, List.countP_nil, Ev.isTokenEv, Ev.isConnEv]
  · refine ⟨?_, ?_⟩ <;>
      simp [List.countP_cons, List.countP_nil, Ev.isTokenEv, Ev.isConnEv]

lemma ltr_counts (cfg : Config) (o : Oracle) (cid : Str) (fuel : Nat)
    (ltr : List Ev) (h : (get_invoices_for_contact cfg o cid fuel).tr = ltr) :
    ltr.countP Ev.isTokenEv = 0 ∧ ltr.countP Ev.isConnEv = 0 ∧
    ltr.countP Ev.isContactsEv = 0 := by
  have hs := (get_invoices_tr_shape cfg o cid fuel ltr h).1
  refine ⟨List.countP_eq_zero.mpr fun e he => ?_,
    List.countP_eq_zero.mpr fun e he => ?_,
    List.countP_eq_zero.mpr fun e he => ?_⟩ <;>
  · have hc := pageOrBasic_class _ e (hs e he)
    simp [hc.1, hc.2.1, hc.2.2.1]

lemma procLoop_counts (o : Oracle) (proc dset : Finset Str)
    (invs : List Invoice) :
    (procLoop o proc dset invs).1.countP Ev.isTokenEv = 0 ∧
    (procLoop o proc dset invs).1.countP Ev.isConnEv = 0 ∧
    (procLoop o proc dset invs).1.countP Ev.isContactsEv = 0 := by
  refine ⟨List.countP_eq_zero.mpr fun e he => ?_,
    List.countP_eq_zero.mpr fun e he => ?_,
    List.countP_eq_zero.mpr fun e he => ?_⟩ <;>
  · have hc := procLoop_class o proc dset invs e he
    simp [hc.1, hc.2.1, hc.2.2.1]

lemma mainRun_counts (cfg : Config) (o : Oracle) (log0 sfLog : Option (List Str))
    (fuel : Nat) :
    (mainRun cfg o log0 sfLog fuel).tr.countP Ev.isTokenEv = 1 ∧
    (mainRun cfg o log0 sfLog fuel).tr.countP Ev.isConnEv ≤ 1 ∧
    (mainRun cfg o log0 sfLog fuel).tr.countP Ev.isContactsEv ≤ 1 := by
  have h0 := tr0run_counts
  have h1t := (get_token_shape cfg o).2
  have h1z := get_token_zero cfg o
  have h2c := (get_tenant_shape o).2
  have h2z := get_tenant_zero o
  have h3c := (get_contact_shape cfg o).2
  have h3z := get_contact_zero cfg o
  rcases mainRun_decomp cfg o log0 sfLog fuel with
    ⟨h1, hm⟩ | ⟨h1, hm⟩ | ⟨h1, hm⟩ | ⟨cid, ltr, hC, hL, hm⟩ |
    ⟨cid, ltr, hC, hL, hm⟩ | ⟨cid, invs, ltr, hC, hL, hm⟩ <;>
    rw [hm] <;>
    simp only [exitOut, spinOut, mainDone, doneTr, tr3run, tr2run, tr1run,
      List.countP_append]
  · rw [h0.1, h1t, h0.2.1, h1z.1, h0.2.2, h1z.2]
    exact ⟨rfl, by omega, by omega⟩
  · rw [h0.1, h1t, h0.2.1, h1z.1, h0.2.2, h1z.2, h2c, (h2z).1, (h2z).2]
    exact ⟨rfl, by omega, by omega⟩
  · rw [h0.1, h1t, h0.2.1, h1z.1, h0.2.2, h1z.2, h2c, (h2z).1, (h2z).2,
      h3c, h3z.1, h3z.2]
    exact ⟨rfl, by omega, by omega⟩
  · have hl := ltr_counts cfg o cid fuel ltr (by rw [hL]; rfl)
    rw [h0.1, h1t, h0.2.1, h1z.1, h0.2.2, h1z.2, h2c, (h2z).1, (h2z).2,
      h3c, h3z.1, h3z.2, hl.1, hl.2.1, hl.2.2]
    exact ⟨rfl, by omega, by omega⟩
  · have hl := ltr_counts cfg o cid fuel ltr (by rw [hL]; rfl)
    rw [h0.1, h1t, h0.2.1, h1z.1, h0.2.2, h1z.2, h2c, (h2z).1, (h2z).2,
      h3c, h3z.1, h3z.2, hl.1, hl.2.1, hl.2.2]
    exact ⟨rfl, by omega, by omega⟩
  · have hl := ltr_counts cfg o cid fuel ltr (by rw [hL]; rfl)
    have hp := procLoop_counts o (procAt sfLog) (dsetAt sfLog) invs
    simp only [tr3run, tr2run, tr1run, List.countP_append] at hp ⊢
    rw [h0.1, h1t, h0.2.1, h1z.1, h0.2.2, h1z.2, h2c, (h2z).1, (h2z).2,
      h3c, h3z.1, h3z.2, hl.1, hl.2.1, hl.2.2, hp.1, hp.2.1, hp.2.2]
    refine ⟨?_, by simp [List.countP_cons, List.countP_nil, Ev.isConnEv], ?_⟩
    · simp [List.countP_cons, List.countP_nil, Ev.isTokenEv]
    · simp [List.countP_cons, List.countP_nil, Ev.isContactsEv]

lemma mainRun_pages (cfg : Config) (o : Oracle) (log0 sfLog : Option (List Str))
    (fuel : Nat) :
    ∃ m, (mainRun cfg o log0 sfLog fuel).tr.filterMap Ev.pageOf =
      List.range' 1 m := by
  have h3p : (tr3run cfg o).filterMap Ev.pageOf = [] :=
    List.filterMap_eq_nil.mpr fun e he =>
      (shape3_class cfg e (tr3run_shape cfg o e he)).2
  have h2p : (tr2run cfg o).filterMap Ev.pageOf = [] :=
    List.filterMap_eq_nil.mpr fun e he => by
      have hs := tr2run_shape cfg o e he
      exact (shape3_class cfg e (by tauto)).2
  have h1p : (tr1run cfg o).filterMap Ev.pageOf = [] :=
    List.filterMap_eq_nil.mpr fun e he => by
      have hs := tr1run_shape cfg o e he
      exact (shape3_class cfg e (by tauto)).2
  rcases mainRun_decomp cfg o log0 sfLog fuel with
    ⟨h1, hm⟩ | ⟨h1, hm⟩ | ⟨h1, hm⟩ | ⟨cid, ltr, hC, hL, hm⟩ |
    ⟨cid, ltr, hC, hL, hm⟩ | ⟨cid, invs, ltr, hC, hL, hm⟩ <;> rw [hm]
  · exact ⟨0, by simp [exitOut, h1p]⟩
  · exact ⟨0, by simp [exitOut, h2p]⟩
  · exact ⟨0, by simp [exitOut, h3p]⟩
  · obtain ⟨m, hml⟩ := (get_invoices_tr_shape cfg o cid fuel ltr
      (by rw [hL]; rfl)).2
    exact ⟨m, by simp [exitOut, List.filterMap_append, h3p, hml]⟩
  · obtain ⟨m, hml⟩ := (get_invoices_tr_shape cfg o cid fuel ltr
      (by rw [hL]; rfl)).2
    exact ⟨m, by simp [spinOut, List.filterMap_append, h3p, hml]⟩
  · obtain ⟨m, hml⟩ := (get_invoices_tr_shape cfg o cid fuel ltr
      (by rw [hL]; rfl)).2
    have hpl : (procLoop o (procAt sfLog) (dsetAt sfLog)
        invs).1.filterMap Ev.pageOf = [] :=
      List.filterMap_eq_nil.mpr fun e he =>
        (procLoop_class o _ _ invs e he).2.2.2
    refine ⟨m, ?_⟩
    have hd2 : List.filterMap Ev.pageOf [Ev.ensureDir (supplierFolder cfg),
        Ev.chdir (supplierFolder cfg)] = [] := rfl
    simp only [mainDone, doneTr, List.filterMap_append, h3p, hml, hpl, hd2]
    simp [Ev.pageOf]

/-! ### Branch equations for `mainRun` -/

lemma mainRun_token_exit (cfg : Config) (o : Oracle)
    (log0 sfLog : Option (List Str)) (fuel : Nat)
    (hT : (get_token cfg o).ok? = none) :
    mainRun cfg o log0 sfLog fuel = exitOut o log0 (tr1run cfg o) := by
  unfold mainRun
  rw [hT]

lemma mainRun_tenant_exit (cfg : Config) (o : Oracle)
    (log0 sfLog : Option (List Str)) (fuel : Nat) (tok : Str)
    (hT : (get_token cfg o).ok? = some tok)
    (hTe : (get_tenant_id o).ok? = none) :
    mainRun cfg o log0 sfLog fuel = exitOut o log0 (tr2run cfg o) := by
  unfold mainRun
  rw [hT, hTe]

lemma mainRun_contact_exit (cfg : Config) (o : Oracle)
    (log0 sfLog : Option (List Str)) (fuel : Nat) (tok ten : Str)
    (hT : (get_token cfg o).ok? = some tok)
    (hTe : (get_tenant_id o).ok? = some ten)
    (hC : (get_contact_id cfg o).ok? = none) :
    mainRun cfg o log0 sfLog fuel = exitOut o log0 (tr3run cfg o) := by
  unfold mainRun
  rw [hT, hTe, hC]

lemma mainRun_page_exit (cfg : Config) (o : Oracle)
    (log0 sfLog : Option (List Str)) (fuel : Nat) (tok ten cid : Str)
    (ltr : List Ev)
    (hT : (get_token cfg o).ok? = some tok)
    (hTe : (get_tenant_id o).ok? = some ten)
    (hC : (get_contact_id cfg o).ok? = some cid)
    (hL : get_invoices_for_contact cfg o cid fuel = .exit ltr) :
    mainRun cfg o log0 sfLog fuel = exitOut o log0 (tr3run cfg o ++ ltr) := by
  unfold mainRun
  simp only [hT, hTe, hC, hL]

lemma mainRun_done_out (cfg : Config) (o : Oracle)
    (log0 sfLog : Option (List Str)) (fuel : Nat) (tok ten cid : Str)
    (invs : List Invoice) (ltr : List Ev)
    (hT : (get_token cfg o).ok? = some tok)
    (hTe : (get_tenant_id o).ok? = some ten)
    (hC : (get_contact_id cfg o).ok? = some cid)
    (hL : get_invoices_for_contact cfg o cid fuel = .done invs ltr) :
    mainRun cfg o log0 sfLog fuel = mainDone o log0 sfLog (tr3run cfg o ++ ltr ++
      [.ensureDir (supplierFolder cfg), .chdir (supplierFolder cfg)])
      invs := by
  unfold mainRun
  simp only [hT, hTe, hC, hL]

lemma get_invoices_of_done (cfg : Config) (o : Oracle) (cid : Str)
    (fuel : Nat) (invs : List Invoice) (tl : List Ev)
    (h : invLoop o (whereInvoices cid cfg.startYear cfg.startMonth
      cfg.startDay) fuel 1 [] [] = .done invs tl) :
    get_invoices_for_contact cfg o cid fuel = .done invs (tl ++
      [.printMsg (msgFoundInvoices cfg invs.length),
       .logRec INFO (msgFoundInvoices cfg invs.length)]) := by
  unfold get_invoices_for_contact
  rw [h]

lemma get_invoices_of_exit (cfg : Config) (o : Oracle) (cid : Str)
    (fuel : Nat) (tl : List Ev)
    (h : invLoop o (whereInvoices cid cfg.startYear cfg.startMonth
      cfg.startDay) fuel 1 [] [] = .exit tl) :
    get_invoices_for_contact cfg o cid fuel = .exit tl := by
  unfold get_invoices_for_contact
  rw [h]

/-! ### The invoice loop inside a whole run -/

lemma mainRun_done_of_invoices (cfg : Config) (o : Oracle)
    (log0 sfLog : Option (List Str)) (fuel : Nat)
    (hne : (mainRun cfg o log0 sfLog fuel).invoices ≠ []) :
    ∃ cid invs ltr, (get_contact_id cfg o).ok? = some cid ∧
      get_invoices_for_contact cfg o cid fuel = .done invs ltr ∧
      mainRun cfg o log0 sfLog fuel = mainDone o log0 sfLog (tr3run cfg o ++ ltr ++
        [.ensureDir (supplierFolder cfg), .chdir (supplierFolder cfg)])
        invs := by
  rcases mainRun_decomp cfg o log0 sfLog fuel with
    ⟨h1, hm⟩ | ⟨h1, hm⟩ | ⟨h1, hm⟩ | ⟨cid, ltr, hC, hL, hm⟩ |
    ⟨cid, ltr, hC, hL, hm⟩ | ⟨cid, invs, ltr, hC, hL, hm⟩
  · rw [hm] at hne; exact absurd rfl hne
  · rw [hm] at hne; exact absurd rfl hne
  · rw [hm] at hne; exact absurd rfl hne
  · rw [hm] at hne; exact absurd rfl hne
  · rw [hm] at hne; exact absurd rfl hne
  · exact ⟨cid, invs, ltr, hC, hL, hm⟩

lemma mainRun_meta_mem (cfg : Config) (o : Oracle)
    (log0 sfLog : Option (List Str)) (fuel : Nat) (inv : Invoice)
    (hmem : inv ∈ (mainRun cfg o log0 sfLog fuel).invoices)
    (hnp : inv.InvoiceID ∉ (mainRun cfg o log0 sfLog fuel).processedSet) :
    Ev.reqAttachMeta inv.InvoiceID ∈ (mainRun cfg o log0 sfLog fuel).tr := by
  obtain ⟨cid, invs, ltr, hC, hL, hm⟩ := mainRun_done_of_invoices cfg o log0 sfLog
    fuel (List.ne_nil_of_mem hmem)
  rw [hm] at hmem hnp ⊢
  simp only [mainDone, doneTr] at hmem hnp ⊢
  refine List.mem_append_left _ (List.mem_append_right _ ?_)
  exact procLoop_meta_mem o _ _ invs inv hmem hnp

lemma mainRun_proc_sublist (cfg : Config) (o : Oracle)
    (log0 sfLog : Option (List Str)) (fuel : Nat) (inv : Invoice)
    (hmem : inv ∈ (mainRun cfg o log0 sfLog fuel).invoices)
    (hnp : inv.InvoiceID ∉ (mainRun cfg o log0 sfLog fuel).processedSet) :
    [Ev.logRec INFO (msgProcessing (invNum inv) inv.InvoiceID (invDate inv)),
     Ev.reqAttachMeta inv.InvoiceID].Sublist (mainRun cfg o log0 sfLog fuel).tr := by
  obtain ⟨cid, invs, ltr, hC, hL, hm⟩ := mainRun_done_of_invoices cfg o log0 sfLog
    fuel (List.ne_nil_of_mem hmem)
  rw [hm] at hmem hnp ⊢
  simp only [mainDone, doneTr] at hmem hnp ⊢
  exact ((procLoop_sublist o _ _ invs inv hmem hnp).trans
    (List.sublist_append_right _ _)).trans (List.sublist_append_left _ _)

lemma mainRun_invoice_mem_of (cfg : Config) (o : Oracle)
    (log0 sfLog : Option (List Str)) (fuel : Nat) (inv : Invoice) (e : Ev)
    (hmem : inv ∈ (mainRun cfg o log0 sfLog fuel).invoices)
    (he : e ∈ (procInvoice o (mainRun cfg o log0 sfLog fuel).processedSet
      (mainRun cfg o log0 sfLog fuel).downloadedSet inv).1) :
    e ∈ (mainRun cfg o log0 sfLog fuel).tr := by
  obtain ⟨cid, invs, ltr, hC, hL, hm⟩ := mainRun_done_of_invoices cfg o log0 sfLog
    fuel (List.ne_nil_of_mem hmem)
  rw [hm] at hmem he ⊢
  simp only [mainDone, doneTr] at hmem he ⊢
  exact List.mem_append_left _ (List.mem_append_right _
    (procLoop_mem_of o _ _ e invs inv hmem he))

lemma logMsgs_ne_of_tr0 (l : List Ev) (h : ∃ r, l = tr0run ++ r) :
    logMsgs l ≠ [] := by
  obtain ⟨r, rfl⟩ := h
  simp [logMsgs, tr0run, List.filterMap_cons]

lemma mainRun_finalLog (cfg : Config) (o : Oracle) (log0 sfLog : Option (List Str))
    (fuel : Nat) :
    (mainRun cfg o log0 sfLog fuel).finalLog =
      fileAt log0 o.pfx (mainRun cfg o log0 sfLog fuel).tr := by
  rcases mainRun_decomp cfg o log0 sfLog fuel with
    ⟨h1, hm⟩ | ⟨h1, hm⟩ | ⟨h1, hm⟩ | ⟨cid, ltr, hC, hL, hm⟩ |
    ⟨cid, ltr, hC, hL, hm⟩ | ⟨cid, invs, ltr, hC, hL, hm⟩ <;> rw [hm] <;> rfl

lemma mainRun_loaded_sets (cfg : Config) (o : Oracle)
    (log0 sfLog : Option (List Str)) (fuel : Nat)
    (hne : (mainRun cfg o log0 sfLog fuel).invoices ≠ []) :
    (mainRun cfg o log0 sfLog fuel).processedSet =
      load_processed_invoices sfLog ∧
    (mainRun cfg o log0 sfLog fuel).downloadedSet =
      load_downloaded_attachments sfLog := by
  obtain ⟨cid, invs, ltr, hC, hL, hm⟩ := mainRun_done_of_invoices cfg o
    log0 sfLog fuel hne
  rw [hm]
  exact ⟨rfl, rfl⟩

lemma mainRun_processed_none (cfg : Config) (o : Oracle)
    (log0 : Option (List Str)) (fuel : Nat) :
    (mainRun cfg o log0 none fuel).processedSet = ∅ := by
  rcases mainRun_decomp cfg o log0 none fuel with
    ⟨h1, hm⟩ | ⟨h1, hm⟩ | ⟨h1, hm⟩ | ⟨cid, ltr, hC, hL, hm⟩ |
    ⟨cid, ltr, hC, hL, hm⟩ | ⟨cid, invs, ltr, hC, hL, hm⟩ <;> rw [hm] <;> rfl

/-! ### A processed invoice is recorded in the log -/

lemma procLine_decomp (P num id_ d : Str) :
    P ++ str " - " ++ INFO ++ str " - " ++ msgProcessing num id_ d =
      (P ++ str " - " ++ INFO ++ str " - " ++ str "Processing invoice: " ++
        num ++ str " (") ++
      (idMarker ++ (id_ ++ ',' :: (str " Date: " ++ d ++ str ")"))) := by
  have h1 : ∀ X : Str, str " (ID: " ++ X = str " (" ++ (idMarker ++ X) := by
    intro X
    rw [← List.append_assoc]
    rfl
  have h2 : ∀ X : Str, str ", Date: " ++ X = ',' :: (str " Date: " ++ X) := by
    intro X
    rfl
  unfold msgProcessing
  simp only [List.append_assoc, h1, h2, List.cons_append]

lemma procLine_marker (P num id_ d : Str) :
    containsSub procMarker
      (P ++ str " - " ++ INFO ++ str " - " ++ msgProcessing num id_ d) =
      true := by
  have h3 : ∀ X : Str, str "Processing invoice: " ++ X =
      procMarker ++ (str " " ++ X) := by
    intro X
    rw [← List.append_assoc]
    rfl
  have hdec : P ++ str " - " ++ INFO ++ str " - " ++ msgProcessing num id_ d =
      (P ++ str " - " ++ INFO ++ str " - ") ++ (procMarker ++
        (str " " ++ (num ++ (str " (ID: " ++ (id_ ++
          (str ", Date: " ++ (d ++ str ")"))))))) := by
    unfold msgProcessing
    simp only [List.append_assoc, h3]
  rw [hdec]
  exact containsSub_append procMarker _ _ (by decide)

lemma mainRun_recorded (cfg : Config) (o : Oracle) (log0 sfLog : Option (List Str))
    (fuel : Nat) (P : Str) (inv : Invoice)
    (hpfx : ∀ k, o.pfx k = P)
    (hmem : inv ∈ (mainRun cfg o log0 sfLog fuel).invoices)
    (hnp : inv.InvoiceID ∉ (mainRun cfg o log0 sfLog fuel).processedSet)
    (ha : noOccStart idMarker (P ++ str " - " ++ INFO ++ str " - " ++
        str "Processing invoice: " ++ invNum inv ++ str " (")
      (idMarker ++ (inv.InvoiceID ++ ',' ::
        (str " Date: " ++ invDate inv ++ str ")"))))
    (hid : noOccStart idMarker inv.InvoiceID
      (',' :: (str " Date: " ++ invDate inv ++ str ")")))
    (hc : ',' ∉ inv.InvoiceID)
    (hs : pyStrip inv.InvoiceID = inv.InvoiceID) :
    inv.InvoiceID ∈
      load_processed_invoices (mainRun cfg o log0 sfLog fuel).finalLog := by
  have hsub := mainRun_proc_sublist cfg o log0 sfLog fuel inv hmem hnp
  have hlog : Ev.logRec INFO (msgProcessing (invNum inv) inv.InvoiceID
      (invDate inv)) ∈ (mainRun cfg o log0 sfLog fuel).tr :=
    hsub.subset (List.mem_cons_self _ _)
  have hpair : (INFO, msgProcessing (invNum inv) inv.InvoiceID (invDate inv)) ∈
      logMsgs (mainRun cfg o log0 sfLog fuel).tr := by
    simp only [logMsgs, List.mem_filterMap]
    exact ⟨_, hlog, rfl⟩
  have hline : (P ++ str " - " ++ INFO ++ str " - " ++
      msgProcessing (invNum inv) inv.InvoiceID (invDate inv)) ∈
      renderLog o.pfx (mainRun cfg o log0 sfLog fuel).tr := by
    have := renderFrom_mem o.pfx P
      (INFO, msgProcessing (invNum inv) inv.InvoiceID (invDate inv)) hpfx
      (logMsgs (mainRun cfg o log0 sfLog fuel).tr) 0 hpair
    simpa [renderLog, List.append_assoc] using this
  rw [mainRun_finalLog cfg o log0 sfLog fuel,
    fileAt_eq log0 o.pfx _ (mainRun_logMsgs_ne cfg o log0 sfLog fuel)]
  simp only [load_processed_invoices]
  refine loadProcessedLines_mem _ _ _ (List.mem_append_right _ ?_)
    (procLine_marker P (invNum inv) inv.InvoiceID (invDate inv)) ?_
  · have hline' : (P ++ str " - " ++ INFO ++ str " - " ++
        msgProcessing (invNum inv) inv.InvoiceID (invDate inv)) ∈
        renderLog o.pfx (mainRun cfg o log0 sfLog fuel).tr := hline
    exact hline'
  · rw [procLine_decomp P (invNum inv) inv.InvoiceID (invDate inv)]
    exact extractProcessedId_correct _ _ _ ha hid hc hs

/-! ### Pagination of `get_invoices_for_contact`, assembled -/

lemma get_invoices_paginates (cfg : Config) (o : Oracle) (cid : Str)
    (k fuel : Nat) (hk : 1 ≤ k) (hfuel : k ≤ fuel)
    (h200 : ∀ p, p < k + 1 → 1 ≤ p → (o.pageResp p).status = 200)
    (hne : ∀ p, p < k → 1 ≤ p → (o.pageResp p).invoices ≠ [])
    (hemp : (o.pageResp k).invoices = []) :
    ∃ tr, get_invoices_for_contact cfg o cid fuel =
        .done (((List.range' 1 (k - 1)).map fun p =>
          (o.pageResp p).invoices).flatten) tr ∧
      tr.filterMap Ev.pageOf = List.range' 1 k := by
  have h1k : 1 + (k - 1) = k := by omega
  obtain ⟨tl, hdone, hpages⟩ := invLoop_done o (whereInvoices cid
    cfg.startYear cfg.startMonth cfg.startDay) (k - 1) 1 [] [] fuel
    (by omega)
    (fun i hi => ⟨h200 (1 + i) (by omega) (by omega),
      hne (1 + i) (by omega) (by omega)⟩)
    (by rw [h1k]; exact h200 k (by omega) hk)
    (by rw [h1k]; exact hemp)
  rw [List.nil_append] at hdone
  refine ⟨tl ++ [.printMsg (msgFoundInvoices cfg
    (((List.range' 1 (k - 1)).map fun p => (o.pageResp p).invoices).flatten).length),
    .logRec INFO (msgFoundInvoices cfg
    (((List.range' 1 (k - 1)).map fun p => (o.pageResp p).invoices).flatten).length)],
    ?_, ?_⟩
  · exact get_invoices_of_done cfg o cid fuel _ tl hdone
  · rw [List.filterMap_append, hpages]
    have hk1 : k - 1 + 1 = k := by omega
    rw [hk1]
    simp [Ev.pageOf]

/-! ### Sanitization -/

lemma mem_pyReplace (a b : Char) (s : Str) (c : Char)
    (h : c ∈ pyReplace a b s) : c = b ∨ (c ≠ a ∧ c ∈ s) := by
  unfold pyReplace at h
  obtain ⟨x, hx, hfx⟩ := List.mem_map.mp h
  by_cases hxa : x = a
  · rw [if_pos hxa] at hfx
    exact Or.inl hfx.symm
  · rw [if_neg hxa] at hfx
    subst hfx
    exact Or.inr ⟨hxa, hx⟩

lemma sanitize_sep (f : Str) :
    '/' ∉ sanitizeName f ∧ '\\' ∉ sanitizeName f := by
  constructor <;> intro h
  · rcases mem_pyReplace '\\' '_' _ _ h with h1 | ⟨h1, h2⟩
    · exact absurd h1 (by decide)
    · rcases mem_pyReplace '/' '_' _ _ h2 with h3 | ⟨h3, h4⟩
      · exact absurd h3 (by decide)
      · exact absurd rfl h3
  · rcases mem_pyReplace '\\' '_' _ _ h with h1 | ⟨h1, h2⟩
    · exact absurd h1 (by decide)
    · exact absurd rfl h1

/-! ### The claims -/

/-- C1: for every invoice and attachment file name, if the derived unique
file name (invoice number, underscore, sanitized file name) is in the
downloaded set loaded from the log file, then `download_invoice_attachment`
returns without issuing the HTTP download request and without writing any
file. -/
theorem claim_C1 (o : Oracle) (invoice_id file_name inv_num : Str)
    (lines : List Str)
    (h : uniqueFileName inv_num file_name ∈
      load_downloaded_attachments (some lines)) :
    ∀ e ∈ download_invoice_attachment o invoice_id file_name inv_num
        (load_downloaded_attachments (some lines)),
      (∀ j f, e ≠ Ev.reqAttachDl j f) ∧ (∀ n c, e ≠ Ev.writeFile n c) := by
  rw [download_skip o invoice_id file_name inv_num _ h]
  intro e he
  fin_cases he
  · exact ⟨fun j f => by simp, fun n c => by simp⟩
  · exact ⟨fun j f => by simp, fun n c => by simp⟩

/-- Witness for C1 at a concrete log file and attachment. -/
theorem claim_C1_witness :
    (uniqueFileName (str "INV1") (str "a.pdf") ∈
      load_downloaded_attachments (some linesW)) ∧
    ∀ e ∈ download_invoice_attachment oracleW (str "i1") (str "a.pdf")
        (str "INV1") (load_downloaded_attachments (some linesW)),
      (∀ j f, e ≠ Ev.reqAttachDl j f) ∧ (∀ n c, e ≠ Ev.writeFile n c) :=
  ⟨by decide, claim_C1 oracleW (str "i1") (str "a.pdf") (str "INV1") linesW
    (by decide)⟩

/-- C4 as stated is false: on the log line
`"... Processing invoice: N1 (ID: a ID: b, c)"` the code extracts `"a"`
(the split on `"ID: "` also cuts at the second occurrence) while the claim's
"substring between `ID: ` and the next comma" is `"a ID: b"`; similarly the
code cuts the downloaded-attachment name at a second occurrence of
`"Downloaded attachment: "` while the claim's "suffix after the marker"
keeps it. -/
theorem claim_C4_counterexample :
    load_processed_invoices
        (some [str "2025-03-20 - INFO - Processing invoice: N1 (ID: a ID: b, c)"]) ≠
      claimLoadProcessed
        (some [str "2025-03-20 - INFO - Processing invoice: N1 (ID: a ID: b, c)"]) ∧
    load_downloaded_attachments
        (some [str "x - INFO - Downloaded attachment: a Downloaded attachment: b"]) ≠
      claimLoadDownloaded
        (some [str "x - INFO - Downloaded attachment: a Downloaded attachment: b"]) := by
  constructor <;> decide

/-- C4 amended: resumption state is reconstructed purely by scanning the log
file; `load_processed_invoices` returns exactly the set of stripped
substrings that follow the first `"ID: "` of a line containing
`"Processing invoice:"`, truncated at the next occurrence of `"ID: "`
(if any) and then at the first comma; `load_downloaded_attachments` returns
exactly the set of stripped suffixes after the first
`"Downloaded attachment: "` of a line containing that marker, truncated at
the next occurrence of the marker (if any); both return the empty set when
the log file does not exist. -/
theorem claim_C4_amended (file : Option (List Str)) :
    load_processed_invoices file = amendLoadProcessed file ∧
    load_downloaded_attachments file = amendLoadDownloaded file ∧
    load_processed_invoices none = ∅ ∧
    load_downloaded_attachments none = ∅ :=
  ⟨load_processed_eq_amend file, load_downloaded_eq_amend file, rfl, rfl⟩

/-- C5: `get_invoices_for_contact` requests pages 1, 2, 3, ... in order,
incrementing by one per successful request, appends each page's invoices in
arrival order, and stops at the first empty page; the result is the
concatenation of all pages preceding the first empty page, and the loop
terminates (for any sufficient fuel) whenever some page is eventually
empty. -/
theorem claim_C5 (cfg : Config) (o : Oracle) (cid : Str) (k fuel : Nat)
    (hk : 1 ≤ k) (hfuel : k ≤ fuel)
    (h200 : ∀ p, p < k + 1 → 1 ≤ p → (o.pageResp p).status = 200)
    (hne : ∀ p, p < k → 1 ≤ p → (o.pageResp p).invoices ≠ [])
    (hemp : (o.pageResp k).invoices = []) :
    ∃ tr, get_invoices_for_contact cfg o cid fuel =
        .done (((List.range' 1 (k - 1)).map fun p =>
          (o.pageResp p).invoices).flatten) tr ∧
      tr.filterMap Ev.pageOf = List.range' 1 k :=
  get_invoices_paginates cfg o cid k fuel hk hfuel h200 hne hemp

/-- Witness for C5: a concrete environment whose page 2 is the first empty
page. -/
theorem claim_C5_witness :
    ((1 : Nat) ≤ 2 ∧ (2 : Nat) ≤ 2 ∧
     (∀ p, p < 3 → 1 ≤ p → (oracleW.pageResp p).status = 200) ∧
     (∀ p, p < 2 → 1 ≤ p → (oracleW.pageResp p).invoices ≠ []) ∧
     (oracleW.pageResp 2).invoices = []) ∧
    ∃ tr, get_invoices_for_contact cfgW oracleW (str "c-1") 2 =
        .done (((List.range' 1 1).map fun p =>
          (oracleW.pageResp p).invoices).flatten) tr ∧
      tr.filterMap Ev.pageOf = List.range' 1 2 :=
  ⟨⟨by decide, by decide, by decide, by decide, by decide⟩,
   claim_C5 cfgW oracleW (str "c-1") 2 2 (by decide) (by decide) (by decide)
     (by decide) (by decide)⟩

/-- C7: `get_contact_id` queries the contacts endpoint with the filter
`Name=="<SUPPLIER_NAME>"`; on status 200 it returns the `ContactID` of the
first contact of the returned list, and when the list is empty it exits the
process with status 1. -/
theorem claim_C7 (cfg : Config) (o : Oracle) :
    (∀ e ∈ (get_contact_id cfg o).tr, ∀ w, e = Ev.reqContacts w →
      w = str "Name==\"" ++ cfg.SUPPLIER_NAME ++ str "\"") ∧
    (o.contactsResp.status = 200 → ∀ c cs,
      o.contactsResp.contacts = c :: cs →
      (get_contact_id cfg o).ok? = some c.ContactID) ∧
    (o.contactsResp.status = 200 → o.contactsResp.contacts = [] →
      (get_contact_id cfg o).ok? = none ∧
      Ev.exited 1 ∈ (get_contact_id cfg o).tr) := by
  refine ⟨?_, ?_, ?_⟩
  · intro e he w hw
    rcases (get_contact_shape cfg o).1 e he with h1 | h1
    · rw [hw] at h1
      simp only [Ev.reqContacts.injEq] at h1
      rw [h1]
      rfl
    · rw [hw] at h1
      simp [Ev.basic] at h1
  · intro h c cs hcs
    exact get_contact_ok cfg o c cs h hcs
  · intro h hcs
    exact ⟨(get_contact_fail_empty cfg o h hcs).1,
      (get_contact_fail_empty cfg o h hcs).2.1⟩

/-- Witness for C7 at a concrete contacts response. -/
theorem claim_C7_witness :
    (oracleW.contactsResp.status = 200 ∧
     oracleW.contactsResp.contacts = ⟨str "c-1"⟩ :: []) ∧
    (get_contact_id cfgW oracleW).ok? =
      some (Contact.mk (str "c-1")).ContactID :=
  ⟨⟨by decide, by decide⟩,
   (claim_C7 cfgW oracleW).2.1 (by decide) ⟨str "c-1"⟩ [] (by decide)⟩

/-- C10 as stated is false: the invoice number is not sanitized, so a
server-supplied `InvoiceNumber` containing `/` puts a directory separator
into the written path. -/
theorem claim_C10_counterexample :
    Ev.writeFile (uniqueFileName (str "A/B") (str "f.pdf")) (str "x") ∈
      download_invoice_attachment oracleDl (str "i1") (str "f.pdf")
        (str "A/B") ∅ ∧
    '/' ∈ uniqueFileName (str "A/B") (str "f.pdf") := by
  constructor <;> decide

/-- C10 amended: the name written to disk is the invoice number, an
underscore, and the file name with every `/` and `\` replaced by `_`; the
sanitized file-name part contains no directory separator, and the whole
written path contains none provided the invoice number itself contains
none (the invoice number is not sanitized). -/
theorem claim_C10_amended (o : Oracle) (invoice_id file_name inv_num : Str)
    (dset : Finset Str) :
    (∀ e ∈ download_invoice_attachment o invoice_id file_name inv_num dset,
      ∀ n c, e = Ev.writeFile n c → n = uniqueFileName inv_num file_name) ∧
    ('/' ∉ sanitizeName file_name ∧ '\\' ∉ sanitizeName file_name) ∧
    ('/' ∉ inv_num → '\\' ∉ inv_num →
      '/' ∉ uniqueFileName inv_num file_name ∧
      '\\' ∉ uniqueFileName inv_num file_name) := by
  refine ⟨?_, sanitize_sep file_name, ?_⟩
  · intro e he n c hw
    rcases download_shape o invoice_id file_name inv_num dset e he with
      h1 | ⟨c2, h1⟩ | h1
    · rw [hw] at h1
      simp at h1
    · rw [hw] at h1
      simp only [Ev.writeFile.injEq] at h1
      exact h1.1
    · rw [hw] at h1
      simp [Ev.basic] at h1
  · intro h1 h2
    unfold uniqueFileName
    constructor <;> intro hmem <;>
      rcases List.mem_append.mp hmem with h3 | h3
    · exact h1 h3
    · rcases List.mem_cons.mp h3 with h4 | h4
      · exact absurd h4 (by decide)
      · exact (sanitize_sep file_name).1 h4
    · exact h2 h3
    · rcases List.mem_cons.mp h3 with h4 | h4
      · exact absurd h4 (by decide)
      · exact (sanitize_sep file_name).2 h4

/-- Witness for C10 amended at a separator-free invoice number. -/
theorem claim_C10_amended_witness :
    ('/' ∉ str "INV1" ∧ '\\' ∉ str "INV1") ∧
    ('/' ∉ uniqueFileName (str "INV1") (str "f.pdf") ∧
     '\\' ∉ uniqueFileName (str "INV1") (str "f.pdf")) :=
  ⟨⟨by decide, by decide⟩,
   (claim_C10_amended oracleDl (str "i1") (str "f.pdf") (str "INV1") ∅).2.2
     (by decide) (by decide)⟩

/-- C2 names a code bug: `main` is meant to skip an invoice iff a prior run
completed it, as recorded in the log file's processed-invoice entries (so
say the spec and the docstrings of the load functions), but the loads at
lines 204-205 run after `os.chdir(supplier_folder)` (line 201) and open the
chdir-relative `supplier_folder/xero_download.log`, while the logger writes
to the absolute path fixed at import — a different file.  The loaded sets
therefore never contain any run's records and no invoice is ever skipped.
Demonstration: the logger's file contains a prior-run processed record for
invoice `i1` and the parser does extract `i1` from it, yet in a run started
on that file (with the supplier-folder file absent) the loaded processed
set is empty, the retrieved invoice `i1` is not skipped, and its attachment
metadata is requested. -/
theorem claim_C2 :
    str "i1" ∈ load_processed_invoices (some linesPrior) ∧
    (mainRun cfgW oracleW (some linesPrior) none 2).processedSet = ∅ ∧
    invW ∈ (mainRun cfgW oracleW (some linesPrior) none 2).invoices ∧
    invW.InvoiceID = str "i1" ∧
    Ev.reqAttachMeta (str "i1") ∈
      (mainRun cfgW oracleW (some linesPrior) none 2).tr ∧
    Ev.printMsg (msgSkipInv (invNum invW) invW.InvoiceID) ∉
      (mainRun cfgW oracleW (some linesPrior) none 2).tr := by
  refine ⟨by decide, by decide, by decide, by decide, by decide, by decide⟩

/-- C6: every invoice page request of a run carries the server-side filter
selecting the invoices of the resolved contact with the configured inclusive
lower date bound and no upper bound:
`Contact.ContactID==Guid("<cid>") AND Date>=DateTime(y,mm,dd)`. -/
theorem claim_C6 (cfg : Config) (o : Oracle) (log0 sfLog : Option (List Str))
    (fuel : Nat) :
    ∀ e ∈ (mainRun cfg o log0 sfLog fuel).tr, ∀ w ord p,
      e = Ev.reqInvoicePage w ord p →
      ∃ c cs, o.contactsResp.contacts = c :: cs ∧
        w = str "Contact.ContactID==Guid(\"" ++ c.ContactID ++
          str "\") AND Date>=DateTime(" ++ natStr cfg.startYear ++
          str "," ++ pad2 cfg.startMonth ++ str "," ++
          pad2 cfg.startDay ++ str ")" := by
  intro e he w ord p hw
  rcases mainRun_tr_shape cfg o log0 sfLog fuel e he with
    h1 | h1 | h1 | ⟨p2, c, cs, hcs, h1⟩ | ⟨j, hj, hnp, inv2, hm2, hid⟩ |
    ⟨n, c, h1⟩ | h1
  · rw [hw] at h1
    simp [tokenReqEv] at h1
  · rw [hw] at h1
    simp at h1
  · rw [hw] at h1
    simp at h1
  · rw [hw] at h1
    simp only [Ev.reqInvoicePage.injEq] at h1
    exact ⟨c, cs, hcs, by rw [h1.1]; rfl⟩
  · rw [hw] at hj
    simp [Ev.attachOf] at hj
  · rw [hw] at h1
    simp at h1
  · rw [hw] at h1
    simp [Ev.basic] at h1

/-- Witness for C6 at the page-1 request of a concrete run. -/
theorem claim_C6_witness :
    (Ev.reqInvoicePage (whereInvoices (str "c-1") 2019 7 5)
        (str "Date DESC") 1 ∈ (mainRun cfgW oracleW none none 2).tr) ∧
    ∃ c cs, oracleW.contactsResp.contacts = c :: cs ∧
      whereInvoices (str "c-1") 2019 7 5 =
        str "Contact.ContactID==Guid(\"" ++ c.ContactID ++
          str "\") AND Date>=DateTime(" ++ natStr cfgW.startYear ++
          str "," ++ pad2 cfgW.startMonth ++ str "," ++
          pad2 cfgW.startDay ++ str ")" :=
  ⟨by decide, claim_C6 cfgW oracleW none none 2 _ (by decide)
    (whereInvoices (str "c-1") 2019 7 5) (str "Date DESC") 1 rfl⟩

/-- C8: `get_token` performs a single client-credentials exchange per run
(exactly one token request in any trace), the request carries `CLIENT_ID`,
`CLIENT_SECRET` and grant type `client_credentials`; on 200 the
`access_token` field of the body is returned, otherwise the process exits
with status 1. -/
theorem claim_C8 (cfg : Config) (o : Oracle) (log0 sfLog : Option (List Str))
    (fuel : Nat) :
    ((mainRun cfg o log0 sfLog fuel).tr.countP Ev.isTokenEv = 1) ∧
    (∀ e ∈ (mainRun cfg o log0 sfLog fuel).tr, ∀ ci cs g sc,
      e = Ev.reqToken ci cs g sc →
      ci = cfg.CLIENT_ID ∧ cs = cfg.CLIENT_SECRET ∧
      g = str "client_credentials") ∧
    (o.tokenResp.status = 200 →
      (get_token cfg o).ok? = some o.tokenResp.access_token) ∧
    (¬ o.tokenResp.status = 200 → (get_token cfg o).ok? = none ∧
      Ev.exited 1 ∈ (get_token cfg o).tr) := by
  refine ⟨(mainRun_counts cfg o log0 sfLog fuel).1, ?_,
    fun h => get_token_ok cfg o h,
    fun h => ⟨(get_token_fail cfg o h).1, (get_token_fail cfg o h).2.1⟩⟩
  intro e he ci cs g sc hw
  rcases mainRun_tr_shape cfg o log0 sfLog fuel e he with
    h1 | h1 | h1 | ⟨p, c, cc, hcs, h1⟩ | ⟨j, hj, hnp, inv2, hm2, hid⟩ |
    ⟨n, c, h1⟩ | h1
  · rw [hw] at h1
    simp only [tokenReqEv, Ev.reqToken.injEq] at h1
    exact ⟨h1.1, h1.2.1, h1.2.2.1⟩
  · rw [hw] at h1
    simp at h1
  · rw [hw] at h1
    simp at h1
  · rw [hw] at h1
    simp at h1
  · rw [hw] at hj
    simp [Ev.attachOf] at hj
  · rw [hw] at h1
    simp at h1
  · rw [hw] at h1
    simp [Ev.basic] at h1

/-- Witness for C8 on a concrete run. -/
theorem claim_C8_witness :
    ((mainRun cfgW oracleW none none 2).tr.countP Ev.isTokenEv = 1) ∧
    (oracleW.tokenResp.status = 200) ∧
    (get_token cfgW oracleW).ok? = some oracleW.tokenResp.access_token :=
  ⟨(claim_C8 cfgW oracleW none none 2).1, by decide,
   (claim_C8 cfgW oracleW none none 2).2.2.1 (by decide)⟩

/-- C3 as stated is false: in a run whose attachment download returns 404,
the failed request is issued, the error is only printed and logged, and the
process does not terminate with exit status 1 — the loop continues. -/
theorem claim_C3_counterexample :
    Ev.reqAttachDl (str "i1") (str "f.pdf") ∈
      (mainRun cfgW oracleW none none 2).tr ∧
    ¬ (oracleW.dlResp (str "i1") (str "f.pdf")).status = 200 ∧
    ¬ (mainRun cfgW oracleW none none 2).exit? = some 1 :=
  ⟨by decide, by decide, by decide⟩

/-- C3 amended: a non-200 response of the token exchange, the connections
lookup, the contact lookup, or an invoice page fetch prints and logs the
error and terminates the run with exit status 1; a non-200 response of an
attachment-metadata fetch or an attachment download also prints and logs
the error but does not terminate the run (the loop continues and the run
still ends without an exit); no endpoint is requested more than once per
page or step, so no retry or backoff is ever performed. -/
theorem claim_C3_amended (cfg : Config) (o : Oracle)
    (log0 sfLog : Option (List Str)) (fuel : Nat) :
    (¬ o.tokenResp.status = 200 →
      (mainRun cfg o log0 sfLog fuel).exit? = some 1 ∧
      Ev.printMsg (msgTokenFail o.tokenResp.status o.tokenResp.text) ∈
        (mainRun cfg o log0 sfLog fuel).tr ∧
      Ev.logRec ERROR (msgTokenFail o.tokenResp.status o.tokenResp.text) ∈
        (mainRun cfg o log0 sfLog fuel).tr) ∧
    (o.tokenResp.status = 200 → ¬ o.connResp.status = 200 →
      (mainRun cfg o log0 sfLog fuel).exit? = some 1 ∧
      Ev.printMsg (msgTenantFail o.connResp.status o.connResp.text) ∈
        (mainRun cfg o log0 sfLog fuel).tr ∧
      Ev.logRec ERROR (msgTenantFail o.connResp.status o.connResp.text) ∈
        (mainRun cfg o log0 sfLog fuel).tr) ∧
    (o.tokenResp.status = 200 → o.connResp.status = 200 →
      o.connResp.tenants ≠ [] → ¬ o.contactsResp.status = 200 →
      (mainRun cfg o log0 sfLog fuel).exit? = some 1 ∧
      Ev.printMsg (msgContactFail o.contactsResp.status
        o.contactsResp.text) ∈ (mainRun cfg o log0 sfLog fuel).tr ∧
      Ev.logRec ERROR (msgContactFail o.contactsResp.status
        o.contactsResp.text) ∈ (mainRun cfg o log0 sfLog fuel).tr) ∧
    (o.tokenResp.status = 200 → o.connResp.status = 200 →
      o.connResp.tenants ≠ [] → o.contactsResp.status = 200 →
      o.contactsResp.contacts ≠ [] →
      ∀ m, 1 ≤ m → m ≤ fuel →
        (∀ p, p < m → 1 ≤ p → (o.pageResp p).status = 200 ∧
          (o.pageResp p).invoices ≠ []) →
        ¬ (o.pageResp m).status = 200 →
        (mainRun cfg o log0 sfLog fuel).exit? = some 1 ∧
        Ev.printMsg (msgInvFail (o.pageResp m).status (o.pageResp m).text) ∈
          (mainRun cfg o log0 sfLog fuel).tr ∧
        Ev.logRec ERROR (msgInvFail (o.pageResp m).status
          (o.pageResp m).text) ∈ (mainRun cfg o log0 sfLog fuel).tr) ∧
    (o.tokenResp.status = 200 → o.connResp.status = 200 →
      o.connResp.tenants ≠ [] → o.contactsResp.status = 200 →
      o.contactsResp.contacts ≠ [] →
      ∀ k, 1 ≤ k → k ≤ fuel →
        (∀ p, p < k → 1 ≤ p → (o.pageResp p).status = 200 ∧
          (o.pageResp p).invoices ≠ []) →
        (o.pageResp k).status = 200 → (o.pageResp k).invoices = [] →
        (mainRun cfg o log0 sfLog fuel).exit? = none) ∧
    (∀ inv ∈ (mainRun cfg o log0 sfLog fuel).invoices,
      inv.InvoiceID ∉ (mainRun cfg o log0 sfLog fuel).processedSet →
      ¬ (o.metaResp inv.InvoiceID).status = 200 →
      Ev.printMsg (msgAttachFail (invNum inv)
        (o.metaResp inv.InvoiceID).status (o.metaResp inv.InvoiceID).text) ∈
        (mainRun cfg o log0 sfLog fuel).tr ∧
      Ev.logRec ERROR (msgAttachFail (invNum inv)
        (o.metaResp inv.InvoiceID).status (o.metaResp inv.InvoiceID).text) ∈
        (mainRun cfg o log0 sfLog fuel).tr) ∧
    (∀ inv ∈ (mainRun cfg o log0 sfLog fuel).invoices,
      inv.InvoiceID ∉ (mainRun cfg o log0 sfLog fuel).processedSet →
      (o.metaResp inv.InvoiceID).status = 200 →
      ∀ a ∈ (o.metaResp inv.InvoiceID).attachments,
        uniqueFileName (invNum inv) a.FileName ∉
          (mainRun cfg o log0 sfLog fuel).downloadedSet →
        ¬ (o.dlResp inv.InvoiceID a.FileName).status = 200 →
        Ev.printMsg (msgDlFail a.FileName
          (o.dlResp inv.InvoiceID a.FileName).status
          (o.dlResp inv.InvoiceID a.FileName).text) ∈
          (mainRun cfg o log0 sfLog fuel).tr ∧
        Ev.logRec ERROR (msgDlFail a.FileName
          (o.dlResp inv.InvoiceID a.FileName).status
          (o.dlResp inv.InvoiceID a.FileName).text) ∈
          (mainRun cfg o log0 sfLog fuel).tr) ∧
    ((mainRun cfg o log0 sfLog fuel).tr.countP Ev.isTokenEv ≤ 1 ∧
     (mainRun cfg o log0 sfLog fuel).tr.countP Ev.isConnEv ≤ 1 ∧
     (mainRun cfg o log0 sfLog fuel).tr.countP Ev.isContactsEv ≤ 1 ∧
     ∀ p, ((mainRun cfg o log0 sfLog fuel).tr.filterMap Ev.pageOf).count p ≤ 1) := by
  refine ⟨?_, ?_, ?_, ?_, ?_, ?_, ?_, ?_⟩
  · intro h
    have hf := get_token_fail cfg o h
    rw [mainRun_token_exit cfg o log0 sfLog fuel hf.1]
    exact ⟨rfl, List.mem_append_right _ hf.2.2.1,
      List.mem_append_right _ hf.2.2.2⟩
  · intro h1 h2
    have hok := get_token_ok cfg o h1
    have hf := get_tenant_fail_status o h2
    rw [mainRun_tenant_exit cfg o log0 sfLog fuel _ hok hf.1]
    exact ⟨rfl, List.mem_append_right _ hf.2.2.1,
      List.mem_append_right _ hf.2.2.2⟩
  · intro h1 h2 h3 h4
    cases hts : o.connResp.tenants with
    | nil => exact absurd hts h3
    | cons t ts =>
      have hok := get_token_ok cfg o h1
      have hte := get_tenant_ok o t ts h2 hts
      have hf := get_contact_fail_status cfg o h4
      rw [mainRun_contact_exit cfg o log0 sfLog fuel _ _ hok hte hf.1]
      exact ⟨rfl, List.mem_append_right _ hf.2.2.1,
        List.mem_append_right _ hf.2.2.2⟩
  · intro h1 h2 h3 h4 h5 m hm1 hmf hprev hfail
    cases hts : o.connResp.tenants with
    | nil => exact absurd hts h3
    | cons t ts =>
      cases hcs : o.contactsResp.contacts with
      | nil => exact absurd hcs h5
      | cons c cs =>
        have hok := get_token_ok cfg o h1
        have hte := get_tenant_ok o t ts h2 hts
        have hC := get_contact_ok cfg o c cs h4 hcs
        have heq : 1 + (m - 1) = m := by omega
        obtain ⟨tl, hexit, hex, hpr, hlg⟩ := invLoop_fail o
          (whereInvoices c.ContactID cfg.startYear cfg.startMonth
            cfg.startDay) (m - 1) 1 [] [] fuel (by omega)
          (fun i hi => hprev (1 + i) (by omega) (by omega))
          (by rw [heq]; exact hfail)
        rw [List.nil_append] at hexit
        rw [heq] at hpr hlg
        have hL := get_invoices_of_exit cfg o c.ContactID fuel tl hexit
        rw [mainRun_page_exit cfg o log0 sfLog fuel _ _ _ tl hok hte hC hL]
        exact ⟨rfl, List.mem_append_right _ hpr,
          List.mem_append_right _ hlg⟩
  · intro h1 h2 h3 h4 h5 k hk1 hkf hprev hk200 hkemp
    cases hts : o.connResp.tenants with
    | nil => exact absurd hts h3
    | cons t ts =>
      cases hcs : o.contactsResp.contacts with
      | nil => exact absurd hcs h5
      | cons c cs =>
        have hok := get_token_ok cfg o h1
        have hte := get_tenant_ok o t ts h2 hts
        have hC := get_contact_ok cfg o c cs h4 hcs
        have heq : 1 + (k - 1) = k := by omega
        obtain ⟨tl, hdone, hpages⟩ := invLoop_done o
          (whereInvoices c.ContactID cfg.startYear cfg.startMonth
            cfg.startDay) (k - 1) 1 [] [] fuel (by omega)
          (fun i hi => hprev (1 + i) (by omega) (by omega))
          (by rw [heq]; exact hk200)
          (by rw [heq]; exact hkemp)
        rw [List.nil_append] at hdone
        have hL := get_invoices_of_done cfg o c.ContactID fuel _ tl hdone
        rw [mainRun_done_out cfg o log0 sfLog fuel _ _ _ _ _ hok hte hC hL]
        rfl
  · intro inv hmem hnp hf
    have h := procInvoice_metafail_msgs o
      (mainRun cfg o log0 sfLog fuel).processedSet
      (mainRun cfg o log0 sfLog fuel).downloadedSet inv hnp hf
    exact ⟨mainRun_invoice_mem_of cfg o log0 sfLog fuel inv _ hmem h.1,
      mainRun_invoice_mem_of cfg o log0 sfLog fuel inv _ hmem h.2⟩
  · intro inv hmem hnp h200 a hatt hd hf
    have h := procInvoice_dlfail_msgs o
      (mainRun cfg o log0 sfLog fuel).processedSet
      (mainRun cfg o log0 sfLog fuel).downloadedSet inv a hnp h200 hatt hd hf
    exact ⟨mainRun_invoice_mem_of cfg o log0 sfLog fuel inv _ hmem h.1,
      mainRun_invoice_mem_of cfg o log0 sfLog fuel inv _ hmem h.2⟩
  · refine ⟨le_of_eq (mainRun_counts cfg o log0 sfLog fuel).1,
      (mainRun_counts cfg o log0 sfLog fuel).2.1,
      (mainRun_counts cfg o log0 sfLog fuel).2.2, ?_⟩
    obtain ⟨m, hp⟩ := mainRun_pages cfg o log0 sfLog fuel
    intro p
    rw [hp]
    exact List.nodup_iff_count_le_one.mp (List.nodup_range' _ _) p

/-- Witness for C3 amended: a token failure exits with status 1; a run whose
download fails still ends without an exit; a failing metadata fetch prints
the error; a failing download logs the error. -/
theorem claim_C3_amended_witness :
    ((mainRun cfgW oracleTokFail none none 1).exit? = some 1) ∧
    ((mainRun cfgW oracleW none none 2).exit? = none) ∧
    (Ev.printMsg (msgAttachFail (invNum invW)
        (oracle9.metaResp invW.InvoiceID).status
        (oracle9.metaResp invW.InvoiceID).text) ∈
      (mainRun cfgW oracle9 none none 2).tr) ∧
    (Ev.logRec ERROR (msgDlFail (str "f.pdf")
        (oracleW.dlResp invW.InvoiceID (str "f.pdf")).status
        (oracleW.dlResp invW.InvoiceID (str "f.pdf")).text) ∈
      (mainRun cfgW oracleW none none 2).tr) :=
  ⟨((claim_C3_amended cfgW oracleTokFail none none 1).1 (by decide)).1,
   (claim_C3_amended cfgW oracleW none none 2).2.2.2.2.1 (by decide) (by decide)
     (by decide) (by decide) (by decide) 2 (by decide) (by decide)
     (by decide) (by decide) (by decide),
   ((claim_C3_amended cfgW oracle9 none none 2).2.2.2.2.2.1 invW (by decide)
     (by decide) (by decide)).1,
   ((claim_C3_amended cfgW oracleW none none 2).2.2.2.2.2.2.1 invW (by decide)
     (by decide) (by decide) ⟨str "f.pdf"⟩ (by decide) (by decide)
     (by decide)).2⟩

/-- C9 as stated is false in its last conjunct: the `"Processing invoice:"`
record does reach the logger's file before the metadata request, and the
parser extracts the invoice id from that file, but a subsequent run does
not skip the invoice — it loads its resumption sets from
`supplier_folder/xero_download.log`, a file the logger (absolute path fixed
at import) never writes.  Counterexample: a run whose metadata fetch
returns 500 processes invoice `i1` and its final logger file records `i1`
as processed, yet a second run started on exactly that logger file (the
supplier-folder file still absent) requests `i1`'s metadata again. -/
theorem claim_C9_counterexample :
    (¬ (oracle9.metaResp invW.InvoiceID).status = 200) ∧
    invW ∈ (mainRun cfgW oracle9 none none 2).invoices ∧
    invW.InvoiceID ∈
      load_processed_invoices (mainRun cfgW oracle9 none none 2).finalLog ∧
    Ev.reqAttachMeta invW.InvoiceID ∈
      (mainRun cfgW oracle9
        (mainRun cfgW oracle9 none none 2).finalLog none 2).tr := by
  refine ⟨by decide, by decide, by decide, by decide⟩

/-- C9 amended: the `"Processing invoice:"` ledger entry of an invoice is
logged before its attachment-metadata request, so when that request fails
the invoice is nonetheless recorded as processed in the file the logger
writes — recording is not atomic with completing the downloads.  But no
subsequent run skips it: the resumption sets are loaded from the
supplier-folder `xero_download.log`, which the logger never writes, so any
later run whose supplier-folder file is absent requests the invoice's
metadata again whenever it retrieves the invoice. -/
theorem claim_C9_amended (cfg : Config) (o : Oracle)
    (log0 sfLog : Option (List Str)) (fuel : Nat) (P : Str) (inv : Invoice)
    (hpfx : ∀ k, o.pfx k = P)
    (hmem : inv ∈ (mainRun cfg o log0 sfLog fuel).invoices)
    (hnp : inv.InvoiceID ∉ (mainRun cfg o log0 sfLog fuel).processedSet)
    (hfail : ¬ (o.metaResp inv.InvoiceID).status = 200)
    (ha : noOccStart idMarker (P ++ str " - " ++ INFO ++ str " - " ++
        str "Processing invoice: " ++ invNum inv ++ str " (")
      (idMarker ++ (inv.InvoiceID ++ ',' ::
        (str " Date: " ++ invDate inv ++ str ")"))))
    (hid : noOccStart idMarker inv.InvoiceID
      (',' :: (str " Date: " ++ invDate inv ++ str ")")))
    (hc : ',' ∉ inv.InvoiceID)
    (hs : pyStrip inv.InvoiceID = inv.InvoiceID) :
    [Ev.logRec INFO (msgProcessing (invNum inv) inv.InvoiceID (invDate inv)),
      Ev.reqAttachMeta inv.InvoiceID].Sublist
      (mainRun cfg o log0 sfLog fuel).tr ∧
    inv.InvoiceID ∈
      load_processed_invoices (mainRun cfg o log0 sfLog fuel).finalLog ∧
    ∀ (o₂ : Oracle) (log₂ : Option (List Str)) (fuel₂ : Nat),
      inv ∈ (mainRun cfg o₂ log₂ none fuel₂).invoices →
      Ev.reqAttachMeta inv.InvoiceID ∈
        (mainRun cfg o₂ log₂ none fuel₂).tr := by
  refine ⟨mainRun_proc_sublist cfg o log0 sfLog fuel inv hmem hnp,
    mainRun_recorded cfg o log0 sfLog fuel P inv hpfx hmem hnp ha hid hc hs, ?_⟩
  intro o₂ log₂ fuel₂ hmem₂
  refine mainRun_meta_mem cfg o₂ log₂ none fuel₂ inv hmem₂ ?_
  rw [mainRun_processed_none cfg o₂ log₂ fuel₂]
  exact Finset.not_mem_empty _

/-- Witness for C9 amended on a concrete run whose metadata fetch returns
500: the second run is started on the first run's final logger file, with
the supplier-folder file absent, and requests the metadata again. -/
theorem claim_C9_amended_witness :
    ((∀ k, oracle9.pfx k = str "2025-03-20 10:00:00,123") ∧
     invW ∈ (mainRun cfgW oracle9 none none 2).invoices ∧
     invW.InvoiceID ∉ (mainRun cfgW oracle9 none none 2).processedSet ∧
     ¬ (oracle9.metaResp invW.InvoiceID).status = 200) ∧
    [Ev.logRec INFO (msgProcessing (invNum invW) invW.InvoiceID
      (invDate invW)), Ev.reqAttachMeta invW.InvoiceID].Sublist
      (mainRun cfgW oracle9 none none 2).tr ∧
    invW.InvoiceID ∈
      load_processed_invoices (mainRun cfgW oracle9 none none 2).finalLog ∧
    Ev.reqAttachMeta invW.InvoiceID ∈
      (mainRun cfgW oracle9
        (mainRun cfgW oracle9 none none 2).finalLog none 2).tr := by
  have h := claim_C9_amended cfgW oracle9 none none 2
    (str "2025-03-20 10:00:00,123") invW
    (fun k => rfl) (by decide) (by decide) (by decide) (by decide)
    (by decide) (by decide) (by decide)
  exact ⟨⟨fun k => rfl, by decide, by decide, by decide⟩, h.1, h.2.1,
    h.2.2 oracle9 (mainRun cfgW oracle9 none none 2).finalLog 2 (by decide)⟩

end XeroBulk
